import Mathlib

/-!
# BloomViz aggregation pipeline — verification of the spec's claims

A shallow embedding of the core aggregation pipeline of the BloomViz
repository:

* `SpatialAnalysis` models `src/src/utils/spatialAnalysis.js` (both the
  naive and the grid-indexed `calculateTrailDensity`, `getAnalysisSummary`,
  `buildResultsFromCounts`).
* `RefreshTrailCounts` models `src/api/lib/refresh-trail-counts-lib.js`
  (`speciesBreakdownForTrail`, the paginated `getTrailsGeoJSON` /
  `getObservationsGeoJSON` loops, and the pure row-building core of
  `refreshOneState`).
* `RefreshObservations` models `src/api/cron/refresh-observations.js`
  (`fetchObservationsForPlace`, `toRows`, `deleteOldObservationsChunked`,
  `backfillOneState`, `refreshOneState`).

Modelling conventions:

* Coordinates are rationals (`ℚ`); JavaScript numbers are used by the code
  only for coordinate arithmetic (`Math.floor(x / cellSize)`) and count
  comparisons, both order-theoretic, so an exact ordered field is faithful.
* Dates (ISO `YYYY-MM-DD` strings in the code) are modelled as integers
  counting days; lexicographic order on ISO date strings agrees with day
  order, and the code only ever compares, offsets by whole days, and tests
  equality of dates.
* The external turf.js library is an opaque collaborator: `turf.buffer` is a
  parameter `buf : BufferFn`, a turf polygon is a `Polygon` carrying its
  bounding box and a decidable containment test (`turf.booleanPointInPolygon`
  / `turf.pointsWithinPolygon` restricted to it), and `turf.bbox` reads off
  the stored box.
* The Supabase store is modelled by its documented query semantics: a table
  is a list of rows; `eq` / `gte` filters, `order` is a stable sort, and
  `range(offset, offset + n - 1)` returns `take n` of `drop offset`.
  `upsert` with `onConflict` replaces the row with the matching key or
  appends (the conflict target is a primary key, so at most one row
  matches).
-/

set_option linter.unusedVariables false
set_option autoImplicit false

/-- JavaScript `a ?? b` (nullish coalescing) on optional values. -/
def orOpt {α : Type} : Option α → Option α → Option α
  | some v, _ => some v
  | none, b => b

/-- First non-`none` element of a list of optional values. -/
def firstSome {α : Type} : List (Option α) → Option α
  | [] => none
  | some v :: _ => some v
  | none :: rest => firstSome rest

/-- The distinct elements of a list, in order of first occurrence. -/
def keysInOrder : List String → List String
  | [] => []
  | s :: rest => s :: keysInOrder (rest.filter (fun x => x ≠ s))
termination_by l => l.length
decreasing_by
  simp only [List.length_cons]
  exact Nat.lt_succ_of_le (List.length_filter_le _ _)

/--
One supabase pagination loop (`while (true) { ... .range(offset, offset +
PAGE - 1) ... }` from `getTrailsGeoJSON` / `getObservationsGeoJSON`):
starting at `offset`, repeatedly fetch a page of `ps` rows of the store view
`table`; stop after an empty page or a short page.  Returns the accumulated
rows together with the number of page fetches issued.
-/
def paginateFrom {α : Type} (ps : Nat) (table : List α) (offset : Nat) :
    List α × Nat :=
  if h0 : ((table.drop offset).take ps).length = 0 then ([], 1)
  else if h1 : ((table.drop offset).take ps).length < ps then
    ((table.drop offset).take ps, 1)
  else
    let rest := paginateFrom ps table (offset + ps)
    ((table.drop offset).take ps ++ rest.1, rest.2 + 1)
termination_by table.length - offset
decreasing_by
  simp only [List.length_take, List.length_drop] at h0 h1
  omega

/-- Stable insertion step for `sortByKeyDesc`. -/
def insertByKeyDesc {α : Type} (key : α → Int) (x : α) : List α → List α
  | [] => [x]
  | y :: ys =>
    if key y ≤ key x then x :: y :: ys else y :: insertByKeyDesc key x ys

/--
Stable sort, descending by `key`.  Models JavaScript
`array.sort((a, b) => key(b) - key(a))`: `Array.prototype.sort` is stable,
and for a total preorder comparator the stable sorted output is unique, so
any stable descending sort is a faithful model.
-/
def sortByKeyDesc {α : Type} (key : α → Int) : List α → List α
  | [] => []
  | x :: xs => insertByKeyDesc key x (sortByKeyDesc key xs)

/-- Stable ascending sort by `key` (used for `order(chunk_id)`). -/
def sortByKeyAsc {α : Type} (key : α → Int) (l : List α) : List α :=
  sortByKeyDesc (fun a => -(key a)) l

/-- The integers from `a` to `b` inclusive (empty when `b < a`). -/
def intRange (a b : Int) : List Int :=
  (List.range (b + 1 - a).toNat).map (fun (i : Nat) => a + (i : Int))

namespace SpatialAnalysis

/--
The `properties` object of one observation GeoJSON feature, as built by
`getObservationsGeoJSON` in `refresh-trail-counts-lib.js`.
-/
structure ObsProps where
  id : Int
  species : Option String
  scientificName : Option String
  taxonId : Option Int
  observedOn : Option Int
  qualityGrade : Option String
  userId : Option String
  photoUrl : Option String
deriving DecidableEq, Repr

/-- One observation point feature: a coordinate pair plus its properties. -/
structure ObsFeature where
  lng : ℚ
  lat : ℚ
  props : ObsProps
deriving DecidableEq, Repr

/--
One trail feature.  The core reads only `properties.name`; the line
geometry is consumed exclusively by the external `turf.buffer`, so it is
kept opaque as `geom`.
-/
structure Trail where
  name : String
  geom : Nat
deriving DecidableEq, Repr

/--
A turf.js buffer polygon, as consumed by the code: `turf.bbox(buffer)`
yields `(minX, minY, maxX, maxY)` and `turf.pointsWithinPolygon` performs an
exact containment test per point, modelled by the decidable field
`containsPt`.
-/
structure Polygon where
  minX : ℚ
  minY : ℚ
  maxX : ℚ
  maxY : ℚ
  containsPt : ℚ → ℚ → Bool

/--
`turf.buffer(trail, 50, { units: 'meters' })` as an opaque collaborator:
`Except.error e` models a thrown exception (caught by the per-trail
`try/catch`), `Except.ok none` models a null/undefined buffer result.
-/
def BufferFn : Type := Trail → Except String (Option Polygon)

/-- `turf.pointsWithinPolygon(collection, polygon)`: the features whose
point lies in the polygon, in input order. -/
def pointsWithinPolygon (pts : List ObsFeature) (poly : Polygon) :
    List ObsFeature :=
  pts.filter (fun f => poly.containsPt f.lng f.lat)

/-- One element of the `results` array of `calculateTrailDensity`.  The
`error` field is present (`some msg`) only when the per-trail `catch` branch
ran. -/
structure TrailResult where
  name : String
  observationCount : Nat
  trail : Trail
  observationsNearby : List ObsProps
  error : Option String
deriving DecidableEq, Repr

/-- A zero-count result row for a trail, as pushed by the no-observations /
no-buffer branches. -/
def zeroResult (t : Trail) : TrailResult :=
  { name := t.name, observationCount := 0, trail := t,
    observationsNearby := [], error := none }

/-- Loop body of the naive `calculateTrailDensity` (first version of
`spatialAnalysis.js`, lines 38-74): buffer the trail and run
`pointsWithinPolygon` against the full observation collection. -/
def processTrailNaive (buf : BufferFn) (obs : List ObsFeature) (t : Trail) :
    TrailResult :=
  match buf t with
  | .error e =>
    { name := t.name, observationCount := 0, trail := t,
      observationsNearby := [], error := some e }
  | .ok none => zeroResult t
  | .ok (some poly) =>
    let pts := pointsWithinPolygon obs poly
    { name := t.name, observationCount := pts.length, trail := t,
      observationsNearby := pts.map (fun f => f.props), error := none }

/--
The naive `calculateTrailDensity(trails, observations)`: no grid index,
every trail's buffer is tested against every observation.  Results are
sorted by `observationCount` descending (`console.warn` diagnostics of this
version are not modelled; the logs of the grid version, which the refresh
pipeline uses, are). -/
def calculateTrailDensityNaive (buf : BufferFn) (trails : List Trail)
    (obs : List ObsFeature) : List TrailResult :=
  if trails.isEmpty then []
  else if obs.isEmpty then trails.map zeroResult
  else
    sortByKeyDesc (fun r => (r.observationCount : Int))
      (trails.map (processTrailNaive buf obs))

/-- Grid cell size in degrees (`GRID_CELL_DEG = 0.01`). -/
def GRID_CELL_DEG : ℚ := 1 / 100

/-- The cell key of a point: `floor(lng / GRID_CELL_DEG), floor(lat /
GRID_CELL_DEG)` (the code's string key is an injective rendering of this
integer pair). -/
def cellKeyOf (lng lat : ℚ) : Int × Int :=
  (⌊lng / GRID_CELL_DEG⌋, ⌊lat / GRID_CELL_DEG⌋)

/-- The cell key of an observation feature. -/
def cellKey (f : ObsFeature) : Int × Int := cellKeyOf f.lng f.lat

/-- The grid index: a JavaScript `Map` from cell key to the cell's
features, in insertion order. -/
abbrev Grid : Type := List ((Int × Int) × List ObsFeature)

/-- `grid.get(key)`. -/
def gridGet : Grid → Int × Int → Option (List ObsFeature)
  | [], _ => none
  | (k', l) :: rest, k => if k' = k then some l else gridGet rest k

/-- `if (!grid.has(key)) grid.set(key, []); grid.get(key).push(f)`. -/
def gridInsert : Grid → Int × Int → ObsFeature → Grid
  | [], k, f => [(k, [f])]
  | (k', l) :: rest, k, f =>
    if k' = k then (k', l ++ [f]) :: rest else (k', l) :: gridInsert rest k f

/-- `buildObservationGrid(observations)`: assign every observation to its
cell. -/
def buildObservationGrid (obs : List ObsFeature) : Grid :=
  obs.foldl (fun g f => gridInsert g (cellKey f) f) []

/--
`getCandidatesInBbox(grid, bbox)`: concatenate the cells whose index lies in
the inclusive cell range covering the box, outer loop over `cx`, inner loop
over `cy`.
-/
def getCandidatesInBbox (g : Grid) (minX minY maxX maxY : ℚ) :
    List ObsFeature :=
  let minCellX := ⌊minX / GRID_CELL_DEG⌋
  let maxCellX := ⌊maxX / GRID_CELL_DEG⌋
  let minCellY := ⌊minY / GRID_CELL_DEG⌋
  let maxCellY := ⌊maxY / GRID_CELL_DEG⌋
  (intRange minCellX maxCellX).flatMap (fun cx =>
    (intRange minCellY maxCellY).flatMap (fun cy =>
      (gridGet g (cx, cy)).getD []))

/-- Loop body of the grid-indexed `calculateTrailDensity`
(`spatialAnalysis.js`, lines 197-240): buffer, bbox, grid candidate lookup,
empty-candidate short circuit, exact containment test. -/
def processTrailGrid (buf : BufferFn) (g : Grid) (t : Trail) : TrailResult :=
  match buf t with
  | .error e =>
    { name := t.name, observationCount := 0, trail := t,
      observationsNearby := [], error := some e }
  | .ok none => zeroResult t
  | .ok (some poly) =>
    let candidates := getCandidatesInBbox g poly.minX poly.minY poly.maxX poly.maxY
    if candidates.isEmpty then zeroResult t
    else
      let pts := pointsWithinPolygon candidates poly
      { name := t.name, observationCount := pts.length, trail := t,
        observationsNearby := pts.map (fun f => f.props), error := none }

/-- Console output of one iteration of the grid-indexed loop: the `catch`
branch logs `console.error`; the null-buffer branch of this version logs
nothing. -/
def processTrailGridLog (buf : BufferFn) (t : Trail) : List String :=
  match buf t with
  | .error e => ["Error processing trail " ++ t.name ++ ": " ++ e]
  | .ok _ => []

/--
The grid-indexed `calculateTrailDensity(trails, observations)`
(`spatialAnalysis.js`, lines 178-245), the version used by the refresh
pipeline.  Returns the results array (sorted by `observationCount`
descending) together with the console diagnostics emitted during the run.
-/
def calculateTrailDensity (buf : BufferFn) (trails : List Trail)
    (obs : List ObsFeature) : List TrailResult × List String :=
  if trails.isEmpty then ([], ["No trails provided for analysis"])
  else if obs.isEmpty then
    (trails.map zeroResult, ["No observations provided for analysis"])
  else
    let g := buildObservationGrid obs
    (sortByKeyDesc (fun r => (r.observationCount : Int))
        (trails.map (processTrailGrid buf g)),
      trails.flatMap (processTrailGridLog buf))

/-- `getAnalysisSummary(results)`.  The floating-point `avgCount` string
(`toFixed(1)`) is presentation-only and not modelled. -/
structure AnalysisSummary where
  totalTrails : Nat
  trailsWithObservations : Nat
  totalObservationsNearTrails : Nat
  maxCount : Nat
  bufferDistance : Nat
deriving DecidableEq, Repr

/-- `getAnalysisSummary(results)`: `maxCount` is read off `results[0]`. -/
def getAnalysisSummary (results : List TrailResult) : AnalysisSummary :=
  { totalTrails := results.length
    trailsWithObservations :=
      (results.filter (fun r => decide (0 < r.observationCount))).length
    totalObservationsNearTrails :=
      (results.map (fun r => r.observationCount)).sum
    maxCount := match results with
      | [] => 0
      | r :: _ => r.observationCount
    bufferDistance := 50 }

/-- One `{ species, count, taxon_id }` entry of a stored
`species_breakdown`. -/
structure BreakdownEntry where
  species : String
  count : Nat
  taxon_id : Option Int
deriving DecidableEq, Repr

/-- One row of the `trail_observation_counts` table. -/
structure CountRow where
  state : String
  trail_name : String
  observation_count : Nat
  species_breakdown : List BreakdownEntry
deriving DecidableEq, Repr

/-- One element of the results array built by `buildResultsFromCounts`. -/
structure PrecompResult where
  name : String
  observationCount : Nat
  trail : Trail
  observationsNearby : List ObsProps
  speciesBreakdown : List BreakdownEntry
deriving DecidableEq, Repr

/-- `new Map((countsArray).map((c) => [c.trail_name, c])).get(name)`: for
duplicate names the later entry wins. -/
def lookupLastCount (counts : List CountRow) (name : String) :
    Option CountRow :=
  (counts.filter (fun c => c.trail_name = name)).getLast?

/-- `buildResultsFromCounts(trailsGeoJSON, countsArray)`: one result per
trail from the precomputed table, missing trails defaulting to zero, sorted
by `observationCount` descending. -/
def buildResultsFromCounts (trails : List Trail) (counts : List CountRow) :
    List PrecompResult :=
  if trails.isEmpty then []
  else
    sortByKeyDesc (fun r => (r.observationCount : Int))
      (trails.map (fun t =>
        match lookupLastCount counts t.name with
        | some c =>
          { name := t.name, observationCount := c.observation_count,
            trail := t, observationsNearby := [],
            speciesBreakdown := c.species_breakdown }
        | none =>
          { name := t.name, observationCount := 0, trail := t,
            observationsNearby := [], speciesBreakdown := [] }))

end SpatialAnalysis

namespace RefreshTrailCounts

open SpatialAnalysis

/-- `TRAILS_PAGE` from `refresh-trail-counts-lib.js`. -/
def TRAILS_PAGE : Nat := 10

/-- `OBS_PAGE` from `refresh-trail-counts-lib.js`. -/
def OBS_PAGE : Nat := 500

/-- `UPSERT_BATCH` from `refresh-trail-counts-lib.js`. -/
def UPSERT_BATCH : Nat := 300

/--
The accumulator entry of `speciesBreakdownForTrail`'s `Map`:
`(species key, (count, taxon_id))`, in insertion order.
-/
abbrev SBMap : Type := List (String × (Nat × Option Int))

/-- `counts.get(s)`. -/
def sbGet : SBMap → String → Option (Nat × Option Int)
  | [], _ => none
  | (s', e) :: rest, s => if s' = s then some e else sbGet rest s

/-- `counts.set(s, e)`: update the existing slot in place, else append. -/
def sbSet : SBMap → String → Nat × Option Int → SBMap
  | [], s, e => [(s, e)]
  | (s', e') :: rest, s, e =>
    if s' = s then (s, e) :: rest else (s', e') :: sbSet rest s e

/-- The grouping key `o.species || 'Unknown'`: JavaScript `||` treats both a
missing species and the empty string as falsy. -/
def jsSpeciesKey (o : ObsProps) : String :=
  match o.species with
  | some s => if s = "" then "Unknown" else s
  | none => "Unknown"

/-- Loop body of `speciesBreakdownForTrail`:
`counts.set(s, { count: existing.count + 1, taxon_id: existing.taxon_id ?? o.taxonId ?? null })`. -/
def sbStep (m : SBMap) (o : ObsProps) : SBMap :=
  let s := jsSpeciesKey o
  let e := (sbGet m s).getD (0, none)
  sbSet m s (e.1 + 1, orOpt e.2 o.taxonId)

/-- The output conversion `taxon_id: taxon_id || undefined`: JavaScript `||`
also maps a taxon id of `0` to `undefined`. -/
def jsTaxonOut : Option Int → Option Int
  | some v => if v = 0 then none else some v
  | none => none

/-- `speciesBreakdownForTrail(observationsNearby)`
(`refresh-trail-counts-lib.js`, lines 12-27). -/
def speciesBreakdownForTrail (obs : List ObsProps) : List BreakdownEntry :=
  (obs.foldl sbStep []).map (fun p =>
    { species := p.1, count := p.2.1, taxon_id := jsTaxonOut p.2.2 })

/-- One row of the `trails` table: `(state, chunk_id, geojson)`; `geojson`
is a feature collection, read as `r.geojson?.features ?? []`. -/
structure TrailChunk where
  state : String
  chunkId : Int
  geojson : Option (List Trail)
deriving DecidableEq, Repr

/-- One row of the `observations` table (see `supabase/schema.sql`); the
point coordinates stand for the stored `geojson` geometry. -/
structure DbObs where
  id : Int
  state : String
  species : Option String
  scientificName : Option String
  taxonId : Option Int
  observedOn : Option Int
  qualityGrade : Option String
  userLogin : Option String
  photoUrl : Option String
  lng : ℚ
  lat : ℚ
deriving DecidableEq, Repr

/-- Store semantics of the trails query built by `getTrailsGeoJSON`:
`.eq('state', state).order('chunk_id', { ascending: true })`. -/
def trailsStoreView (s : String) (table : List TrailChunk) :
    List TrailChunk :=
  sortByKeyAsc (fun c => c.chunkId)
    (table.filter (fun c => decide (c.state = s)))

/-- The pagination loop of `getTrailsGeoJSON`: pages of `TRAILS_PAGE` rows;
returns all accumulated rows and the number of page fetches. -/
def getTrailsAllRows (view : List TrailChunk) : List TrailChunk × Nat :=
  paginateFrom TRAILS_PAGE view 0

/-- `getTrailsGeoJSON(supabase, state)`: paginated read of the state's
trail chunks, flattened to one feature collection
(`allRows.flatMap((r) => r.geojson?.features ?? [])`). -/
def getTrailsGeoJSON (s : String) (table : List TrailChunk) : List Trail :=
  (getTrailsAllRows (trailsStoreView s table)).1.flatMap
    (fun r => r.geojson.getD [])

/-- `sevenDaysAgo` as a day number: the refresh run date minus 7 days. -/
def windowStart (runDay : Int) : Int := runDay - 7

/-- Store semantics of the observations query built by
`getObservationsGeoJSON`: `.eq('state', state).gte('observed_on', dateStr)
.order('observed_on', { ascending: false })` (a SQL `>=` filter is not
satisfied by a NULL date). -/
def obsStoreView (runDay : Int) (s : String) (table : List DbObs) :
    List DbObs :=
  sortByKeyDesc (fun o => o.observedOn.getD 0)
    (table.filter (fun o =>
      decide (o.state = s) &&
        o.observedOn.any (fun d => decide (windowStart runDay ≤ d))))

/-- The pagination loop of `getObservationsGeoJSON`: pages of `OBS_PAGE`
rows; returns all accumulated rows and the number of page fetches. -/
def getObservationsAllData (view : List DbObs) : List DbObs × Nat :=
  paginateFrom OBS_PAGE view 0

/-- The per-row feature construction of `getObservationsGeoJSON`. -/
def obsSelectRow (o : DbObs) : ObsFeature :=
  { lng := o.lng, lat := o.lat,
    props :=
      { id := o.id, species := o.species,
        scientificName := o.scientificName, taxonId := o.taxonId,
        observedOn := o.observedOn, qualityGrade := o.qualityGrade,
        userId := o.userLogin, photoUrl := o.photoUrl } }

/-- `getObservationsGeoJSON(supabase, state)` (lines 49-86): windowed,
paginated read of the state's observations, mapped to point features. -/
def getObservationsGeoJSON (runDay : Int) (s : String)
    (table : List DbObs) : List ObsFeature :=
  (getObservationsAllData (obsStoreView runDay s table)).1.map obsSelectRow

/-- The row construction of `refreshOneState` (lines 100-105): one
`trail_observation_counts` row per result of `calculateTrailDensity`. -/
def refreshOneStateRows (s : String) (buf : BufferFn) (trails : List Trail)
    (obs : List ObsFeature) : List CountRow :=
  (calculateTrailDensity buf trails obs).1.map (fun r =>
    { state := s, trail_name := r.name,
      observation_count := r.observationCount,
      species_breakdown := speciesBreakdownForTrail r.observationsNearby })

end RefreshTrailCounts

namespace RefreshObservations

open RefreshTrailCounts (DbObs)

/-- `BATCH_SIZE` from `refresh-observations.js`. -/
def BATCH_SIZE : Nat := 150

/-- `per_page` of the iNaturalist request, and the short-page threshold. -/
def PER_PAGE : Nat := 200

/-- `maxPages` from `fetchObservationsForPlace`: the hard iteration
ceiling. -/
def maxPages : Nat := 4

/-- One observation as returned by the external iNaturalist provider
(the fields `toRows` reads). -/
structure ProviderObs where
  id : Int
  taxonPreferredCommonName : Option String
  taxonName : Option String
  taxonId : Option Int
  taxonTaxonId : Option Int
  observedOn : Option Int
  qualityGrade : Option String
  userLogin : Option String
  photoUrl : Option String
  geojson : Option (ℚ × ℚ)
deriving DecidableEq, Repr

/--
The `while (page <= maxPages)` loop of `fetchObservationsForPlace`, with
`pagesLeft` iterations remaining: fetch a page from the provider; an empty
page stops with no rows kept, a short page stops after keeping it, a full
page continues.  Returns the accumulated results and the number of provider
requests issued.
-/
def fetchLoop (provider : Nat → List ProviderObs) :
    Nat → Nat → List ProviderObs × Nat
  | 0, _ => ([], 0)
  | pagesLeft + 1, page =>
    let res := provider page
    if res.length = 0 then ([], 1)
    else if res.length < PER_PAGE then (res, 1)
    else
      let rest := fetchLoop provider pagesLeft (page + 1)
      (res ++ rest.1, rest.2 + 1)

/-- `fetchObservationsForPlace(placeId, d1, d2)`
(`refresh-observations.js`, lines 12-42).  The provider function stands for
the external paginated iNaturalist API with `place_id`, `d1`, `d2` and the
fixed query parameters already applied; it is indexed by the `page`
parameter. -/
def fetchObservationsForPlace (provider : Nat → List ProviderObs) :
    List ProviderObs × Nat :=
  fetchLoop provider maxPages 1

/-- JavaScript `s || null` on an optional string: the empty string is
falsy. -/
def jsStrOrNull : Option String → Option String
  | some s => if s = "" then none else some s
  | none => none

/-- `toRows(observations, stateCode)` (lines 44-61): drop observations
without coordinates, map provider fields to `observations` rows.  The
`photo_url` square→small substring substitution is presentation-only and
not modelled. -/
def toRows (observations : List ProviderObs) (stateCode : String) :
    List DbObs :=
  (observations.filter (fun o => o.geojson.isSome)).map (fun o =>
    { id := o.id, state := stateCode,
      species := orOpt (jsStrOrNull o.taxonPreferredCommonName)
        (jsStrOrNull o.taxonName),
      scientificName := jsStrOrNull o.taxonName,
      taxonId := orOpt o.taxonId o.taxonTaxonId,
      observedOn := o.observedOn,
      qualityGrade := jsStrOrNull o.qualityGrade,
      userLogin := jsStrOrNull o.userLogin,
      photoUrl := jsStrOrNull o.photoUrl,
      lng := (o.geojson.getD (0, 0)).1, lat := (o.geojson.getD (0, 0)).2 })

/-- The `(id, state)` conflict key of the `observations` primary key. -/
def keyOf (r : DbObs) : Int × String := (r.id, r.state)

/-- One upsert with `onConflict: 'id,state'`: replace the row with the
matching key (at most one, the key being a primary key), else append. -/
def upsertRow (table : List DbObs) (r : DbObs) : List DbObs :=
  if table.any (fun x => decide (keyOf x = keyOf r)) then
    table.map (fun x => if keyOf x = keyOf r then r else x)
  else table ++ [r]

/-- `upsertBatched(rows)` (lines 64-72): sequential batched upserts; the
chunking into `BATCH_SIZE` groups composes to a row-by-row fold. -/
def upsertBatched (table : List DbObs) (rows : List DbObs) : List DbObs :=
  rows.foldl upsertRow table

/-- `dateToDelete`: one day before the window start `d1`. -/
def dateToDelete (d1 : Int) : Int := d1 - 1

/-- `deleteOldObservationsChunked(stateCode, d1)` (lines 75-85): delete the
state's rows dated exactly `d1 - 1`. -/
def deleteOldObservationsChunked (stateCode : String) (d1 : Int)
    (table : List DbObs) : List DbObs :=
  table.filter (fun r =>
    !(decide (r.state = stateCode) &&
      decide (r.observedOn = some (dateToDelete d1))))

/-- `backfillOneState(stateCode, d1, d2)` (lines 88-97) as a transformer of
the `observations` table: fetch, convert, upsert; never deletes. -/
def backfillOneState (provider : Nat → List ProviderObs)
    (stateCode : String) (table : List DbObs) : List DbObs :=
  let observations := (fetchObservationsForPlace provider).1
  let rows := toRows observations stateCode
  if rows.length = 0 then table else upsertBatched table rows

/-- `refreshOneState(stateCode, d1, d2)` (lines 99-111) as a transformer of
the `observations` table: fetch, delete the single day `d1 - 1`, convert,
upsert. -/
def refreshOneState (provider : Nat → List ProviderObs)
    (stateCode : String) (d1 : Int) (table : List DbObs) : List DbObs :=
  let observations := (fetchObservationsForPlace provider).1
  let afterDelete := deleteOldObservationsChunked stateCode d1 table
  let rows := toRows observations stateCode
  if rows.length = 0 then afterDelete else upsertBatched afterDelete rows

/-- The `d1` computed by the cron handler (lines 123-125): the run date
minus 7 days, i.e. the window start. -/
def handlerD1 (runDay : Int) : Int := runDay - 7

end RefreshObservations

namespace RefreshTrailCounts

open SpatialAnalysis

/-- The number of observations grouped under species key `s`. -/
def sbCnt (l : List ObsProps) (s : String) : Nat :=
  (l.filter (fun o => jsSpeciesKey o = s)).length

/-- The first non-null taxon id among the observations grouped under
species key `s`. -/
def sbTax (l : List ObsProps) (s : String) : Option Int :=
  firstSome ((l.filter (fun o => jsSpeciesKey o = s)).map
    (fun o => o.taxonId))

/-- The accumulator slot for species key `s`. -/
def sbEntry (l : List ObsProps) (s : String) : Nat × Option Int :=
  (sbCnt l s, sbTax l s)

/--
Declarative characterization of the accumulator built by
`speciesBreakdownForTrail`'s loop: one slot per distinct species key in
order of first occurrence, carrying the number of matches and the first
non-null taxon id among them.
-/
def sbModel (l : List ObsProps) : SBMap :=
  (keysInOrder (l.map jsSpeciesKey)).map (fun s => (s, sbEntry l s))

/--
A species breakdown grouped by `key`: one entry per distinct key in order
of first occurrence, `count` the number of matches with that key, and the
taxon id obtained by passing the first non-null taxon id of the group
through `taxOut`.
-/
def groupedSpeciesBreakdown (key : ObsProps → String)
    (taxOut : Option Int → Option Int) (l : List ObsProps) :
    List BreakdownEntry :=
  (keysInOrder (l.map key)).map (fun s =>
    { species := s, count := (l.filter (fun o => key o = s)).length,
      taxon_id := taxOut (firstSome ((l.filter (fun o => key o = s)).map
        (fun o => o.taxonId))) })

/-- The grouping key as the spec's claim words it: the species name, with
only a null species mapped to "Unknown". -/
def claimedKey (o : ObsProps) : String := o.species.getD "Unknown"

/-- The species breakdown exactly as the spec's claim words it: grouped on
the species name (null → "Unknown"), counting occurrences, retaining the
first non-null taxon id seen, in insertion order of first occurrence. -/
def claimedSpeciesBreakdown : List ObsProps → List BreakdownEntry :=
  groupedSpeciesBreakdown claimedKey id

/-- The species breakdown the code actually computes, stated
declaratively: like the claimed one, but a null or empty species groups
under "Unknown" and a first non-null taxon id of 0 is output as absent. -/
def amendedSpeciesBreakdown : List ObsProps → List BreakdownEntry :=
  groupedSpeciesBreakdown jsSpeciesKey jsTaxonOut

end RefreshTrailCounts

namespace SpatialAnalysis

/--
Agreement of one grid-indexed result with one naive result: same trail
name, same observation count, and the same matched observation properties
up to order (the grid visits candidates in cell order, so only the
multiset is preserved).
-/
def DensityAgree (a b : TrailResult) : Prop :=
  a.name = b.name ∧ a.observationCount = b.observationCount ∧
    a.observationsNearby.Perm b.observationsNearby

end SpatialAnalysis

/-! ## Sort lemmas -/

theorem insertByKeyDesc_perm {α : Type} (key : α → Int) (x : α)
    (l : List α) : (insertByKeyDesc key x l).Perm (x :: l) := by
  induction l with
  | nil => exact List.Perm.refl _
  | cons y ys ih =>
    by_cases h : key y ≤ key x
    · simp only [insertByKeyDesc, if_pos h]
      exact List.Perm.refl _
    · simp only [insertByKeyDesc, if_neg h]
      exact (ih.cons y).trans (List.Perm.swap x y ys)

theorem sortByKeyDesc_perm {α : Type} (key : α → Int) (l : List α) :
    (sortByKeyDesc key l).Perm l := by
  induction l with
  | nil => exact List.Perm.refl _
  | cons x xs ih =>
    exact (insertByKeyDesc_perm key x _).trans (ih.cons x)

theorem mem_sortByKeyDesc {α : Type} {key : α → Int} {l : List α} {a : α} :
    a ∈ sortByKeyDesc key l ↔ a ∈ l :=
  (sortByKeyDesc_perm key l).mem_iff

theorem length_sortByKeyDesc {α : Type} (key : α → Int) (l : List α) :
    (sortByKeyDesc key l).length = l.length :=
  (sortByKeyDesc_perm key l).length_eq

theorem pairwise_insertByKeyDesc {α : Type} (key : α → Int) (x : α)
    {l : List α} (h : l.Pairwise (fun a b => key b ≤ key a)) :
    (insertByKeyDesc key x l).Pairwise (fun a b => key b ≤ key a) := by
  induction l with
  | nil =>
    simp [insertByKeyDesc]
  | cons y ys ih =>
    rw [List.pairwise_cons] at h
    obtain ⟨hy, hys⟩ := h
    by_cases hk : key y ≤ key x
    · simp only [insertByKeyDesc, if_pos hk]
      refine List.Pairwise.cons ?_ (List.Pairwise.cons hy hys)
      intro z hz
      rcases List.mem_cons.mp hz with rfl | hz
      · exact hk
      · exact le_trans (hy z hz) hk
    · simp only [insertByKeyDesc, if_neg hk]
      refine List.Pairwise.cons ?_ (ih hys)
      intro z hz
      rcases List.mem_cons.mp
          ((insertByKeyDesc_perm key x ys).mem_iff.mp hz) with rfl | hz
      · exact le_of_lt (lt_of_not_le hk)
      · exact hy z hz

theorem pairwise_sortByKeyDesc {α : Type} (key : α → Int) (l : List α) :
    (sortByKeyDesc key l).Pairwise (fun a b => key b ≤ key a) := by
  induction l with
  | nil => simp [sortByKeyDesc]
  | cons x xs ih => exact pairwise_insertByKeyDesc key x ih

theorem insertByKeyDesc_forall₂ {α : Type} {R : α → α → Prop}
    {key : α → Int} (hkey : ∀ a b, R a b → key a = key b) {x y : α}
    {l₁ l₂ : List α} (hxy : R x y) (h : List.Forall₂ R l₁ l₂) :
    List.Forall₂ R (insertByKeyDesc key x l₁) (insertByKeyDesc key y l₂) := by
  induction h with
  | nil =>
    exact List.Forall₂.cons hxy List.Forall₂.nil
  | @cons a b as bs hab hl ih =>
    have hab' : key a = key b := hkey a b hab
    have hxy' : key x = key y := hkey x y hxy
    by_cases hk : key a ≤ key x
    · have hk' : key b ≤ key y := by rw [← hab', ← hxy']; exact hk
      simp only [insertByKeyDesc, if_pos hk, if_pos hk']
      exact List.Forall₂.cons hxy (List.Forall₂.cons hab hl)
    · have hk' : ¬(key b ≤ key y) := by rw [← hab', ← hxy']; exact hk
      simp only [insertByKeyDesc, if_neg hk, if_neg hk']
      exact List.Forall₂.cons hab ih

theorem sortByKeyDesc_forall₂ {α : Type} {R : α → α → Prop}
    {key : α → Int} (hkey : ∀ a b, R a b → key a = key b)
    {l₁ l₂ : List α} (h : List.Forall₂ R l₁ l₂) :
    List.Forall₂ R (sortByKeyDesc key l₁) (sortByKeyDesc key l₂) := by
  induction h with
  | nil => exact List.Forall₂.nil
  | cons hab hl ih => exact insertByKeyDesc_forall₂ hkey hab ih

/-! ## Pagination lemmas -/

theorem paginateFrom_fst {α : Type} {ps : Nat} (hps : 0 < ps)
    (table : List α) (offset : Nat) :
    (paginateFrom ps table offset).1 = table.drop offset := by
  have main : ∀ (n offset : Nat), table.length - offset ≤ n →
      (paginateFrom ps table offset).1 = table.drop offset := by
    intro n
    induction n with
    | zero =>
      intro offset h
      have hdrop : table.drop offset = [] :=
        List.drop_eq_nil_of_le (by omega)
      rw [paginateFrom]
      simp [hdrop]
    | succ n ih =>
      intro offset h
      rw [paginateFrom]
      by_cases h0 : ((table.drop offset).take ps).length = 0
      · have : (table.drop offset).take ps = [] := List.length_eq_zero.mp h0
        have hdrop : table.drop offset = [] := by
          rcases List.take_eq_nil_iff.mp this with h' | h'
          · omega
          · exact h'
        simp [h0, hdrop]
      · by_cases h1 : ((table.drop offset).take ps).length < ps
        · have hlen : (table.drop offset).length < ps := by
            have := List.length_take ps (table.drop offset)
            omega
          simp only [dif_neg h0, dif_pos h1]
          exact List.take_of_length_le (le_of_lt hlen)
        · simp only [dif_neg h0, dif_neg h1]
          have hlen0 : 0 < table.length - offset := by
            have h2 := List.length_take ps (table.drop offset)
            have h3 := List.length_drop offset table
            omega
          have ihr : (paginateFrom ps table (offset + ps)).1 =
              table.drop (offset + ps) := ih (offset + ps) (by omega)
          simp only [ihr]
          have h2 : table.drop (offset + ps) = (table.drop offset).drop ps :=
            (List.drop_drop ps offset table).symm
          rw [h2]
          have h3 : ((table.drop offset).take ps).length = ps := by
            have := List.length_take ps (table.drop offset)
            omega
          exact List.take_append_drop ps (table.drop offset)
  exact main (table.length - offset) offset (le_refl _)

theorem paginateFrom_exact {α : Type} {ps k r : Nat} (hr : 0 < r)
    (hrps : r < ps) :
    ∀ (table : List α) (offset : Nat), offset ≤ table.length →
      table.length - offset = k * ps + r →
      paginateFrom ps table offset = (table.drop offset, k + 1) := by
  induction k with
  | zero =>
    intro table offset h1 h2
    have hdlen : (table.drop offset).length = r := by
      rw [List.length_drop]; omega
    have htake : (table.drop offset).take ps = table.drop offset :=
      List.take_of_length_le (by omega)
    rw [paginateFrom]
    rw [htake, hdlen]
    simp only [dif_neg (by omega : ¬ r = 0), dif_pos hrps]
  | succ k ih =>
    intro table offset h1 h2
    have hsm : (k + 1) * ps = k * ps + ps := Nat.succ_mul k ps
    have hdlen : (table.drop offset).length = (k + 1) * ps + r := by
      rw [List.length_drop]; omega
    have htlen : ((table.drop offset).take ps).length = ps := by
      rw [List.length_take]; omega
    rw [paginateFrom]
    simp only [htlen]
    have hps0 : ¬ ps = 0 := by omega
    have hps1 : ¬ ps < ps := by omega
    simp only [dif_neg hps0, dif_neg hps1]
    have ihr : paginateFrom ps table (offset + ps) =
        (table.drop (offset + ps), k + 1) := by
      refine ih table (offset + ps) ?_ ?_
      · omega
      · omega
    rw [ihr]
    have h2' : table.drop (offset + ps) = (table.drop offset).drop ps :=
      (List.drop_drop ps offset table).symm
    rw [h2']
    rw [List.take_append_drop ps (table.drop offset)]

theorem paginateFrom_snd_short {α : Type} {ps : Nat} (table : List α)
    (offset : Nat) (h : (table.drop offset).length < ps) :
    (paginateFrom ps table offset).2 = 1 := by
  rw [paginateFrom]
  have htlen : ((table.drop offset).take ps).length =
      (table.drop offset).length := by
    rw [List.length_take]; omega
  by_cases h0 : ((table.drop offset).take ps).length = 0
  · rw [dif_pos h0]
  · have h1 : ((table.drop offset).take ps).length < ps := by omega
    rw [dif_neg h0, dif_pos h1]

/-! ## keysInOrder lemmas -/

theorem mem_keysInOrder (a : String) (l : List String) :
    a ∈ keysInOrder l ↔ a ∈ l := by
  induction l using keysInOrder.induct with
  | case1 => simp [keysInOrder]
  | case2 s rest ih =>
    rw [keysInOrder]
    simp only [List.mem_cons, ih, List.mem_filter, decide_eq_true_eq]
    constructor
    · rintro (rfl | ⟨h, -⟩)
      · exact Or.inl rfl
      · exact Or.inr h
    · rintro (rfl | h)
      · exact Or.inl rfl
      · by_cases hs : a = s
        · exact Or.inl hs
        · exact Or.inr ⟨h, hs⟩

theorem keysInOrder_nodup (l : List String) : (keysInOrder l).Nodup := by
  induction l using keysInOrder.induct with
  | case1 => simp [keysInOrder]
  | case2 s rest ih =>
    rw [keysInOrder]
    refine List.nodup_cons.mpr ⟨?_, ih⟩
    intro hmem
    have h1 := (mem_keysInOrder s _).mp hmem
    have h2 := (List.mem_filter.mp h1).2
    rw [decide_eq_true_eq] at h2
    exact h2 rfl

theorem keysInOrder_append_singleton (a : String) (l : List String) :
    keysInOrder (l ++ [a]) =
      if a ∈ l then keysInOrder l else keysInOrder l ++ [a] := by
  induction l using keysInOrder.induct with
  | case1 =>
    rw [List.nil_append, keysInOrder]
    simp [keysInOrder]
  | case2 s rest ih =>
    have hcons : (s :: rest) ++ [a] = s :: (rest ++ [a]) := rfl
    rw [hcons, keysInOrder, List.filter_append]
    by_cases hax : a = s
    · subst hax
      have hfa : [a].filter (fun x => decide (x ≠ a)) = [] := by simp
      rw [hfa, List.append_nil]
      rw [if_pos (List.mem_cons_self a rest)]
      rw [keysInOrder]
    · have hfa : [a].filter (fun x => decide (x ≠ s)) = [a] := by
        simp [hax]
      rw [hfa, ih]
      have hmemiff : a ∈ rest.filter (fun x => decide (x ≠ s)) ↔ a ∈ rest := by
        simp [List.mem_filter, hax]
      by_cases har : a ∈ rest
      · rw [if_pos (hmemiff.mpr har)]
        rw [if_pos (List.mem_cons_of_mem s har)]
        rw [keysInOrder]
      · rw [if_neg (fun h => har (hmemiff.mp h))]
        have hnm : ¬ a ∈ s :: rest := by
          intro h
          rcases List.mem_cons.mp h with h' | h'
          · exact hax h'
          · exact har h'
        rw [if_neg hnm, keysInOrder, List.cons_append]

/-! ## Species-breakdown accumulator lemmas -/

namespace RefreshTrailCounts

open SpatialAnalysis

theorem sbGet_map (keys : List String) (g : String → Nat × Option Int)
    (k : String) :
    sbGet (keys.map (fun s => (s, g s))) k =
      if k ∈ keys then some (g k) else none := by
  induction keys with
  | nil => simp [sbGet]
  | cons s rest ih =>
    simp only [List.map_cons]
    by_cases hk : s = k
    · subst hk
      simp [sbGet]
    · rw [show sbGet ((s, g s) :: rest.map (fun s' => (s', g s'))) k =
          sbGet (rest.map (fun s' => (s', g s'))) k from by
        simp [sbGet, hk]]
      rw [ih]
      by_cases hm : k ∈ rest
      · rw [if_pos hm, if_pos (List.mem_cons_of_mem s hm)]
      · have hnm : ¬ k ∈ s :: rest := by
          intro h
          rcases List.mem_cons.mp h with h' | h'
          · exact hk h'.symm
          · exact hm h'
        rw [if_neg hm, if_neg hnm]

theorem sbSet_map_not_mem (keys : List String)
    (g : String → Nat × Option Int) (k : String) (v : Nat × Option Int)
    (h : k ∉ keys) :
    sbSet (keys.map (fun s => (s, g s))) k v =
      keys.map (fun s => (s, g s)) ++ [(k, v)] := by
  induction keys with
  | nil => rfl
  | cons s rest ih =>
    have hsk : ¬ s = k := by
      intro e
      exact h (e ▸ List.mem_cons_self s rest)
    simp only [List.map_cons]
    rw [show sbSet ((s, g s) :: rest.map (fun s' => (s', g s'))) k v =
        (s, g s) :: sbSet (rest.map (fun s' => (s', g s'))) k v from by
      simp [sbSet, hsk]]
    rw [ih (fun hm => h (List.mem_cons_of_mem s hm))]
    rfl

theorem sbSet_map_mem (keys : List String)
    (g : String → Nat × Option Int) (k : String) (v : Nat × Option Int)
    (hnd : keys.Nodup) (h : k ∈ keys) :
    sbSet (keys.map (fun s => (s, g s))) k v =
      keys.map (fun s => (s, if s = k then v else g s)) := by
  induction keys with
  | nil => simp at h
  | cons s rest ih =>
    rw [List.nodup_cons] at hnd
    obtain ⟨hs, hnd'⟩ := hnd
    by_cases hsk : s = k
    · subst hsk
      simp only [List.map_cons]
      rw [show sbSet ((s, g s) :: rest.map (fun s' => (s', g s'))) s v =
          (s, v) :: rest.map (fun s' => (s', g s')) from by simp [sbSet]]
      simp only [if_true]
      congr 1
      apply List.map_congr_left
      intro x hx
      rw [if_neg (fun e : x = s => hs (e ▸ hx))]
    · have hkr : k ∈ rest := by
        rcases List.mem_cons.mp h with h' | h'
        · exact absurd h'.symm hsk
        · exact h'
      simp only [List.map_cons]
      rw [show sbSet ((s, g s) :: rest.map (fun s' => (s', g s'))) k v =
          (s, g s) :: sbSet (rest.map (fun s' => (s', g s'))) k v from by
        simp [sbSet, hsk]]
      rw [ih hnd' hkr, if_neg hsk]

theorem firstSome_append {α : Type} (l₁ l₂ : List (Option α)) :
    firstSome (l₁ ++ l₂) = orOpt (firstSome l₁) (firstSome l₂) := by
  induction l₁ with
  | nil => rfl
  | cons x rest ih =>
    cases x with
    | some v => simp [firstSome, orOpt]
    | none => simp [firstSome, ih]

theorem firstSome_singleton {α : Type} (x : Option α) :
    firstSome [x] = x := by
  cases x <;> rfl

theorem orOpt_none_right {α : Type} (x : Option α) : orOpt x none = x := by
  cases x <;> rfl

theorem sbCnt_append (xs : List ObsProps) (o : ObsProps) (s : String) :
    sbCnt (xs ++ [o]) s =
      sbCnt xs s + (if jsSpeciesKey o = s then 1 else 0) := by
  unfold sbCnt
  rw [List.filter_append, List.length_append]
  congr 1
  by_cases h : jsSpeciesKey o = s
  · simp [h]
  · simp [h]

theorem sbTax_append (xs : List ObsProps) (o : ObsProps) (s : String) :
    sbTax (xs ++ [o]) s =
      orOpt (sbTax xs s) (if jsSpeciesKey o = s then o.taxonId else none) := by
  unfold sbTax
  rw [List.filter_append, List.map_append, firstSome_append]
  congr 1
  by_cases h : jsSpeciesKey o = s
  · simp [h, firstSome_singleton]
  · simp [h, firstSome]

theorem sbFoldl_eq_sbModel (l : List ObsProps) :
    l.foldl sbStep [] = sbModel l := by
  induction l using List.reverseRecOn with
  | nil => simp [sbModel, keysInOrder]
  | append_singleton xs o ih =>
    rw [List.foldl_append, List.foldl_cons, List.foldl_nil, ih]
    have hkeys : sbModel xs =
        (keysInOrder (xs.map jsSpeciesKey)).map
          (fun s => (s, sbEntry xs s)) := rfl
    have hget : sbGet (sbModel xs) (jsSpeciesKey o) =
        if jsSpeciesKey o ∈ keysInOrder (xs.map jsSpeciesKey)
        then some (sbEntry xs (jsSpeciesKey o)) else none := by
      rw [hkeys]
      exact sbGet_map _ _ _
    by_cases hmem : jsSpeciesKey o ∈ xs.map jsSpeciesKey
    · have hmem' : jsSpeciesKey o ∈ keysInOrder (xs.map jsSpeciesKey) :=
        (mem_keysInOrder _ _).mpr hmem
      show sbSet (sbModel xs) (jsSpeciesKey o)
          (((sbGet (sbModel xs) (jsSpeciesKey o)).getD (0, none)).1 + 1,
            orOpt ((sbGet (sbModel xs) (jsSpeciesKey o)).getD
              (0, none)).2 o.taxonId) = sbModel (xs ++ [o])
      rw [hget, if_pos hmem']
      simp only [Option.getD_some]
      rw [hkeys, sbSet_map_mem _ _ _ _ (keysInOrder_nodup _) hmem']
      show _ = (keysInOrder ((xs ++ [o]).map jsSpeciesKey)).map
        (fun s => (s, sbEntry (xs ++ [o]) s))
      rw [List.map_append, List.map_cons, List.map_nil]
      rw [keysInOrder_append_singleton, if_pos hmem]
      apply List.map_congr_left
      intro s hsmem
      by_cases hsK : s = jsSpeciesKey o
      · rw [if_pos hsK]
        rw [show sbEntry (xs ++ [o]) s =
            (sbCnt xs s + 1, orOpt (sbTax xs s) o.taxonId) from by
          unfold sbEntry
          rw [sbCnt_append, sbTax_append, if_pos hsK.symm, if_pos hsK.symm]]
        rw [hsK]
        rfl
      · rw [if_neg hsK]
        rw [show sbEntry (xs ++ [o]) s = sbEntry xs s from by
          unfold sbEntry
          rw [sbCnt_append, sbTax_append,
            if_neg (fun e : jsSpeciesKey o = s => hsK e.symm),
            if_neg (fun e : jsSpeciesKey o = s => hsK e.symm),
            Nat.add_zero, orOpt_none_right]]
    · have hmem' : jsSpeciesKey o ∉ keysInOrder (xs.map jsSpeciesKey) :=
        fun h => hmem ((mem_keysInOrder _ _).mp h)
      show sbSet (sbModel xs) (jsSpeciesKey o)
          (((sbGet (sbModel xs) (jsSpeciesKey o)).getD (0, none)).1 + 1,
            orOpt ((sbGet (sbModel xs) (jsSpeciesKey o)).getD
              (0, none)).2 o.taxonId) = sbModel (xs ++ [o])
      rw [hget, if_neg hmem']
      simp only [Option.getD_none]
      rw [hkeys, sbSet_map_not_mem _ _ _ _ hmem']
      show _ = (keysInOrder ((xs ++ [o]).map jsSpeciesKey)).map
        (fun s => (s, sbEntry (xs ++ [o]) s))
      rw [List.map_append, List.map_cons, List.map_nil]
      rw [keysInOrder_append_singleton, if_neg hmem]
      rw [List.map_append, List.map_cons, List.map_nil]
      congr 1
      · apply List.map_congr_left
        intro s hsmem
        have hsK : ¬ (jsSpeciesKey o = s) := by
          intro e
          exact hmem (by rw [e]; exact (mem_keysInOrder s _).mp hsmem)
        rw [show sbEntry (xs ++ [o]) s = sbEntry xs s from by
          unfold sbEntry
          rw [sbCnt_append, sbTax_append, if_neg hsK, if_neg hsK,
            Nat.add_zero, orOpt_none_right]]
      · have hfilter :
            xs.filter (fun p => jsSpeciesKey p = jsSpeciesKey o) = [] := by
          rw [List.filter_eq_nil_iff]
          intro a ha hcontra
          rw [decide_eq_true_eq] at hcontra
          exact hmem (by rw [← hcontra]; exact List.mem_map_of_mem jsSpeciesKey ha)
        have hE : sbEntry (xs ++ [o]) (jsSpeciesKey o) = (1, o.taxonId) := by
          unfold sbEntry sbCnt sbTax
          rw [List.filter_append, hfilter]
          simp [firstSome_singleton]
        rw [hE]
        rfl

/-! ## Species-breakdown count-sum lemmas -/

theorem sbSet_sum_not_mem (m : SBMap) (k : String) (v : Nat × Option Int)
    (h : sbGet m k = none) :
    (List.map (fun p => p.2.1) (sbSet m k v)).sum =
      (List.map (fun p => p.2.1) m).sum + v.1 := by
  induction m with
  | nil => simp [sbSet]
  | cons p rest ih =>
    obtain ⟨s', e'⟩ := p
    by_cases hk : s' = k
    · simp [sbGet, hk] at h
    · have h' : sbGet rest k = none := by
        rw [show sbGet ((s', e') :: rest) k = sbGet rest k from by
          simp [sbGet, hk]] at h
        exact h
      rw [show sbSet ((s', e') :: rest) k v = (s', e') :: sbSet rest k v
        from by simp [sbSet, hk]]
      simp only [List.map_cons, List.sum_cons, ih h']
      omega

theorem sbSet_sum_mem (m : SBMap) (k : String) (v e : Nat × Option Int)
    (h : sbGet m k = some e) :
    (List.map (fun p => p.2.1) (sbSet m k v)).sum + e.1 =
      (List.map (fun p => p.2.1) m).sum + v.1 := by
  induction m with
  | nil => simp [sbGet] at h
  | cons p rest ih =>
    obtain ⟨s', e'⟩ := p
    by_cases hk : s' = k
    · have he : e' = e := by
        rw [show sbGet ((s', e') :: rest) k = some e' from by
          simp [sbGet, hk]] at h
        exact Option.some.inj h
      subst he
      rw [show sbSet ((s', e') :: rest) k v = (k, v) :: rest from by
        simp [sbSet, hk]]
      simp only [List.map_cons, List.sum_cons]
      omega
    · have h' : sbGet rest k = some e := by
        rw [show sbGet ((s', e') :: rest) k = sbGet rest k from by
          simp [sbGet, hk]] at h
        exact h
      rw [show sbSet ((s', e') :: rest) k v = (s', e') :: sbSet rest k v
        from by simp [sbSet, hk]]
      simp only [List.map_cons, List.sum_cons]
      have := ih h'
      omega

theorem sbStep_sum (m : SBMap) (o : ObsProps) :
    (List.map (fun p => p.2.1) (sbStep m o)).sum =
      (List.map (fun p => p.2.1) m).sum + 1 := by
  show (List.map (fun p => p.2.1)
      (sbSet m (jsSpeciesKey o)
        (((sbGet m (jsSpeciesKey o)).getD (0, none)).1 + 1,
          orOpt ((sbGet m (jsSpeciesKey o)).getD (0, none)).2
            o.taxonId))).sum = _
  cases hget : sbGet m (jsSpeciesKey o) with
  | none =>
    simp only [hget, Option.getD_none]
    have h2 := sbSet_sum_not_mem m (jsSpeciesKey o)
      ((((0 : Nat), (none : Option Int))).1 + 1,
        orOpt (((0 : Nat), (none : Option Int))).2 o.taxonId) hget
    simpa using h2
  | some e =>
    simp only [hget, Option.getD_some]
    have := sbSet_sum_mem m (jsSpeciesKey o)
      (e.1 + 1, orOpt e.2 o.taxonId) e hget
    omega

theorem sbFoldl_sum (l : List ObsProps) : ∀ (m : SBMap),
    (List.map (fun p => p.2.1) (l.foldl sbStep m)).sum =
      (List.map (fun p => p.2.1) m).sum + l.length := by
  induction l with
  | nil => intro m; simp
  | cons o rest ih =>
    intro m
    rw [List.foldl_cons, ih (sbStep m o), sbStep_sum]
    simp only [List.length_cons]
    omega

theorem speciesBreakdown_sum (obs : List ObsProps) :
    ((speciesBreakdownForTrail obs).map (fun e => e.count)).sum =
      obs.length := by
  unfold speciesBreakdownForTrail
  rw [List.map_map]
  have hmc : List.map ((fun e : BreakdownEntry => e.count) ∘
      (fun p : String × (Nat × Option Int) =>
        ({ species := p.1, count := p.2.1,
           taxon_id := jsTaxonOut p.2.2 } : BreakdownEntry)))
      (obs.foldl sbStep []) =
      List.map (fun p => p.2.1) (obs.foldl sbStep []) := by
    apply List.map_congr_left
    intro p hp
    rfl
  rw [hmc, sbFoldl_sum]
  simp

end RefreshTrailCounts

/-! ## Grid-index lemmas -/

namespace SpatialAnalysis

theorem gridGet_gridInsert (g : Grid) (k₀ : Int × Int) (f : ObsFeature) :
    ∀ (k : Int × Int), (gridGet (gridInsert g k₀ f) k).getD [] =
      if k = k₀ then (gridGet g k).getD [] ++ [f]
      else (gridGet g k).getD [] := by
  induction g with
  | nil =>
    intro k
    by_cases h : k = k₀
    · subst h
      simp [gridGet, gridInsert]
    · have h' : ¬ k₀ = k := fun e => h e.symm
      simp [gridGet, gridInsert, h, h']
  | cons p rest ih =>
    intro k
    obtain ⟨k', l⟩ := p
    by_cases hk' : k' = k₀
    · subst hk'
      rw [show gridInsert ((k', l) :: rest) k' f = (k', l ++ [f]) :: rest
        from by simp [gridInsert]]
      by_cases hkk : k' = k
      · subst hkk
        simp [gridGet]
      · rw [show gridGet ((k', l ++ [f]) :: rest) k = gridGet rest k from by
          simp [gridGet, hkk]]
        rw [show gridGet ((k', l) :: rest) k = gridGet rest k from by
          simp [gridGet, hkk]]
        rw [if_neg (fun e : k = k' => hkk e.symm)]
    · rw [show gridInsert ((k', l) :: rest) k₀ f =
          (k', l) :: gridInsert rest k₀ f from by simp [gridInsert, hk']]
      by_cases hkk : k' = k
      · subst hkk
        rw [show gridGet ((k', l) :: gridInsert rest k₀ f) k' = some l
          from by simp [gridGet]]
        rw [show gridGet ((k', l) :: rest) k' = some l from by
          simp [gridGet]]
        rw [if_neg hk']
      · rw [show gridGet ((k', l) :: gridInsert rest k₀ f) k =
            gridGet (gridInsert rest k₀ f) k from by simp [gridGet, hkk]]
        rw [show gridGet ((k', l) :: rest) k = gridGet rest k from by
          simp [gridGet, hkk]]
        exact ih k

theorem foldl_gridInsert_get (obs : List ObsFeature) :
    ∀ (g : Grid) (k : Int × Int),
      (gridGet (obs.foldl (fun g f => gridInsert g (cellKey f) f) g) k).getD []
        = (gridGet g k).getD [] ++ obs.filter (fun f => cellKey f = k) := by
  induction obs with
  | nil =>
    intro g k
    simp
  | cons f obs ih =>
    intro g k
    rw [List.foldl_cons, ih (gridInsert g (cellKey f) f) k,
      gridGet_gridInsert]
    rw [List.filter_cons]
    by_cases h : cellKey f = k
    · rw [if_pos h.symm]
      rw [if_pos (by simp [h])]
      rw [List.append_assoc]
      rfl
    · rw [if_neg (fun e : k = cellKey f => h e.symm)]
      rw [if_neg (by simp [h])]

theorem buildGrid_get (obs : List ObsFeature) (k : Int × Int) :
    (gridGet (buildObservationGrid obs) k).getD [] =
      obs.filter (fun f => cellKey f = k) := by
  unfold buildObservationGrid
  rw [foldl_gridInsert_get obs [] k]
  rfl

theorem mem_intRange {a b x : Int} : x ∈ intRange a b ↔ a ≤ x ∧ x ≤ b := by
  unfold intRange
  rw [List.mem_map]
  constructor
  · rintro ⟨i, hi, rfl⟩
    rw [List.mem_range] at hi
    omega
  · rintro ⟨h1, h2⟩
    refine ⟨(x - a).toNat, ?_, ?_⟩
    · rw [List.mem_range]
      omega
    · omega

theorem intRange_nodup (a b : Int) : (intRange a b).Nodup := by
  unfold intRange
  refine List.Nodup.map ?_ (List.nodup_range _)
  intro i j h
  have h2 : a + (i : Int) = a + (j : Int) := h
  omega

theorem nodup_prodPairs {α β : Type} [DecidableEq α] [DecidableEq β]
    (X : List α) (Y : List β) (hX : X.Nodup) (hY : Y.Nodup) :
    (X.flatMap (fun a => Y.map (fun b => (a, b)))).Nodup := by
  induction X with
  | nil => simp
  | cons x xs ih =>
    rw [List.nodup_cons] at hX
    obtain ⟨hx, hxs⟩ := hX
    rw [List.flatMap_cons, List.nodup_append]
    refine ⟨hY.map ?_, ih hxs, ?_⟩
    · intro b1 b2 h
      exact (Prod.ext_iff.mp h).2
    · intro p hp hp2
      obtain ⟨b, hb, rfl⟩ := List.mem_map.mp hp
      obtain ⟨a, ha, hmap⟩ := List.mem_flatMap.mp hp2
      obtain ⟨b', hb', heq⟩ := List.mem_map.mp hmap
      have : a = x := (Prod.ext_iff.mp heq).1
      exact hx (this ▸ ha)

theorem mem_prodPairs {α β : Type} (X : List α) (Y : List β)
    {u : α} {v : β} :
    (u, v) ∈ X.flatMap (fun a => Y.map (fun b => (a, b))) ↔
      u ∈ X ∧ v ∈ Y := by
  rw [List.mem_flatMap]
  constructor
  · rintro ⟨a, ha, hmap⟩
    obtain ⟨b, hb, heq⟩ := List.mem_map.mp hmap
    cases heq
    exact ⟨ha, hb⟩
  · rintro ⟨hu, hv⟩
    exact ⟨u, hu, List.mem_map.mpr ⟨v, hv, rfl⟩⟩

theorem filter_or_perm {α : Type} (l : List α) (p q : α → Bool)
    (hdisj : ∀ a, ¬(p a = true ∧ q a = true)) :
    (l.filter p ++ l.filter q).Perm
      (l.filter (fun a => p a || q a)) := by
  induction l with
  | nil => simp
  | cons a l ih =>
    rw [List.filter_cons, List.filter_cons, List.filter_cons]
    by_cases hp : p a = true
    · have hq : ¬ q a = true := fun hq => hdisj a ⟨hp, hq⟩
      rw [if_pos hp, if_neg hq,
        if_pos (show (p a || q a) = true from by rw [hp]; rfl)]
      rw [List.cons_append]
      exact ih.cons a
    · by_cases hq : q a = true
      · rw [if_neg hp, if_pos hq,
          if_pos (show (p a || q a) = true from by rw [hq, Bool.or_true])]
        exact List.perm_middle.trans (ih.cons a)
      · have hp' : p a = false := by revert hp; cases p a <;> simp
        have hq' : q a = false := by revert hq; cases q a <;> simp
        rw [if_neg hp, if_neg hq,
          if_neg (show ¬ (p a || q a) = true from by rw [hp', hq']; simp)]
        exact ih

theorem flatMap_filter_perm {κ α : Type} [DecidableEq κ]
    (keys : List κ) (hnd : keys.Nodup) (l : List α) (fk : α → κ) :
    (keys.flatMap (fun k => l.filter (fun a => fk a = k))).Perm
      (l.filter (fun a => fk a ∈ keys)) := by
  induction keys with
  | nil =>
    simp
  | cons k ks ih =>
    rw [List.nodup_cons] at hnd
    obtain ⟨hk, hks⟩ := hnd
    rw [List.flatMap_cons]
    have h1 := List.Perm.append_left (l.filter (fun a => fk a = k)) (ih hks)
    refine h1.trans ?_
    have h2 := filter_or_perm l (fun a => decide (fk a = k))
      (fun a => decide (fk a ∈ ks)) ?_
    · refine h2.trans ?_
      have h3 : l.filter (fun a => decide (fk a = k) || decide (fk a ∈ ks))
          = l.filter (fun a => fk a ∈ k :: ks) := by
        apply List.filter_congr
        intro a _
        by_cases h4 : fk a = k
        · simp [h4]
        · by_cases h5 : fk a ∈ ks
          · simp [h4, h5]
          · simp [h4, h5]
      rw [h3]
    · intro a ⟨ha1, ha2⟩
      rw [decide_eq_true_eq] at ha1 ha2
      exact hk (ha1 ▸ ha2)

end SpatialAnalysis

namespace SpatialAnalysis

theorem candidates_filter_perm (obs : List ObsFeature) (poly : Polygon)
    (hbox : ∀ f ∈ obs, poly.containsPt f.lng f.lat = true →
      poly.minX ≤ f.lng ∧ f.lng ≤ poly.maxX ∧
        poly.minY ≤ f.lat ∧ f.lat ≤ poly.maxY) :
    (pointsWithinPolygon
      (getCandidatesInBbox (buildObservationGrid obs)
        poly.minX poly.minY poly.maxX poly.maxY) poly).Perm
      (pointsWithinPolygon obs poly) := by
  have hg : (0 : ℚ) < GRID_CELL_DEG := by norm_num [GRID_CELL_DEG]
  have hcand : getCandidatesInBbox (buildObservationGrid obs)
      poly.minX poly.minY poly.maxX poly.maxY =
      ((intRange ⌊poly.minX / GRID_CELL_DEG⌋ ⌊poly.maxX / GRID_CELL_DEG⌋).flatMap
        (fun cx =>
          (intRange ⌊poly.minY / GRID_CELL_DEG⌋
            ⌊poly.maxY / GRID_CELL_DEG⌋).map (fun cy => (cx, cy)))).flatMap
        (fun c => obs.filter (fun f => cellKey f = c)) := by
    simp only [getCandidatesInBbox]
    rw [List.flatMap_assoc]
    simp only [List.flatMap_map, buildGrid_get]
  rw [hcand]
  have hpairs_nodup :
      ((intRange ⌊poly.minX / GRID_CELL_DEG⌋
          ⌊poly.maxX / GRID_CELL_DEG⌋).flatMap (fun cx =>
        (intRange ⌊poly.minY / GRID_CELL_DEG⌋
          ⌊poly.maxY / GRID_CELL_DEG⌋).map (fun cy => (cx, cy)))).Nodup :=
    nodup_prodPairs _ _ (intRange_nodup _ _) (intRange_nodup _ _)
  have hperm := flatMap_filter_perm _ hpairs_nodup obs cellKey
  unfold pointsWithinPolygon
  refine (List.Perm.filter _ hperm).trans ?_
  rw [List.filter_filter]
  apply List.Perm.of_eq
  apply List.filter_congr
  intro f hf
  by_cases hP : poly.containsPt f.lng f.lat = true
  · obtain ⟨h1, h2, h3, h4⟩ := hbox f hf hP
    have hx1 : ⌊poly.minX / GRID_CELL_DEG⌋ ≤ ⌊f.lng / GRID_CELL_DEG⌋ :=
      Int.floor_le_floor ((div_le_div_iff_of_pos_right hg).mpr h1)
    have hx2 : ⌊f.lng / GRID_CELL_DEG⌋ ≤ ⌊poly.maxX / GRID_CELL_DEG⌋ :=
      Int.floor_le_floor ((div_le_div_iff_of_pos_right hg).mpr h2)
    have hy1 : ⌊poly.minY / GRID_CELL_DEG⌋ ≤ ⌊f.lat / GRID_CELL_DEG⌋ :=
      Int.floor_le_floor ((div_le_div_iff_of_pos_right hg).mpr h3)
    have hy2 : ⌊f.lat / GRID_CELL_DEG⌋ ≤ ⌊poly.maxY / GRID_CELL_DEG⌋ :=
      Int.floor_le_floor ((div_le_div_iff_of_pos_right hg).mpr h4)
    have hmemc : cellKey f ∈
        (intRange ⌊poly.minX / GRID_CELL_DEG⌋
          ⌊poly.maxX / GRID_CELL_DEG⌋).flatMap (fun cx =>
          (intRange ⌊poly.minY / GRID_CELL_DEG⌋
            ⌊poly.maxY / GRID_CELL_DEG⌋).map (fun cy => (cx, cy))) := by
      show (⌊f.lng / GRID_CELL_DEG⌋, ⌊f.lat / GRID_CELL_DEG⌋) ∈ _
      rw [mem_prodPairs]
      exact ⟨mem_intRange.mpr ⟨hx1, hx2⟩, mem_intRange.mpr ⟨hy1, hy2⟩⟩
    rw [hP]
    simp [hmemc]
  · have hP' : poly.containsPt f.lng f.lat = false := by
      revert hP; cases poly.containsPt f.lng f.lat <;> simp
    rw [hP']
    simp

theorem processTrail_agree (buf : BufferFn) (obs : List ObsFeature)
    (t : Trail)
    (hbox : ∀ poly, buf t = Except.ok (some poly) →
      ∀ f ∈ obs, poly.containsPt f.lng f.lat = true →
        poly.minX ≤ f.lng ∧ f.lng ≤ poly.maxX ∧
          poly.minY ≤ f.lat ∧ f.lat ≤ poly.maxY) :
    DensityAgree (processTrailGrid buf (buildObservationGrid obs) t)
      (processTrailNaive buf obs t) := by
  cases hb : buf t with
  | error e =>
    simp only [processTrailGrid, processTrailNaive, hb]
    exact ⟨rfl, rfl, List.Perm.refl _⟩
  | ok op =>
    cases op with
    | none =>
      simp only [processTrailGrid, processTrailNaive, hb]
      exact ⟨rfl, rfl, List.Perm.refl _⟩
    | some poly =>
      have hperm := candidates_filter_perm obs poly (hbox poly hb)
      simp only [processTrailGrid, processTrailNaive, hb]
      by_cases hc : (getCandidatesInBbox (buildObservationGrid obs)
          poly.minX poly.minY poly.maxX poly.maxY).isEmpty
      · rw [if_pos hc]
        have hcnil : getCandidatesInBbox (buildObservationGrid obs)
            poly.minX poly.minY poly.maxX poly.maxY = [] :=
          List.isEmpty_iff.mp hc
        rw [hcnil] at hperm
        have h0 : pointsWithinPolygon [] poly = [] := rfl
        rw [h0] at hperm
        have hnil : pointsWithinPolygon obs poly = [] :=
          List.nil_perm.mp hperm
        refine ⟨rfl, ?_, ?_⟩
        · show (0 : Nat) = (pointsWithinPolygon obs poly).length
          rw [hnil]
          rfl
        · show List.Perm [] ((pointsWithinPolygon obs poly).map
            (fun f => f.props))
          rw [hnil]
          exact List.Perm.refl _
      · rw [if_neg hc]
        exact ⟨rfl, hperm.length_eq, hperm.map (fun f => f.props)⟩

theorem forall₂_map_of_mem {α β γ : Type} {R : β → γ → Prop} (f : α → β)
    (g : α → γ) (l : List α) (h : ∀ x ∈ l, R (f x) (g x)) :
    List.Forall₂ R (l.map f) (l.map g) := by
  induction l with
  | nil => exact List.Forall₂.nil
  | cons x xs ih =>
    rw [List.map_cons, List.map_cons]
    exact List.Forall₂.cons (h x (List.mem_cons_self x xs))
      (ih (fun y hy => h y (List.mem_cons_of_mem x hy)))

theorem calc_count_eq_nearby (buf : BufferFn) (trails : List Trail)
    (obs : List ObsFeature) :
    ∀ r ∈ (calculateTrailDensity buf trails obs).1,
      r.observationCount = r.observationsNearby.length := by
  intro r hr
  unfold calculateTrailDensity at hr
  by_cases ht : trails.isEmpty
  · rw [if_pos ht] at hr
    simp at hr
  · rw [if_neg ht] at hr
    by_cases ho : obs.isEmpty
    · rw [if_pos ho] at hr
      have hr' : r ∈ trails.map zeroResult := hr
      obtain ⟨t, -, rfl⟩ := List.mem_map.mp hr'
      rfl
    · rw [if_neg ho] at hr
      have hr' : r ∈ sortByKeyDesc (fun r => (r.observationCount : Int))
          (trails.map (processTrailGrid buf (buildObservationGrid obs))) :=
        hr
      have hr'' := mem_sortByKeyDesc.mp hr'
      obtain ⟨t, -, rfl⟩ := List.mem_map.mp hr''
      cases hb : buf t with
      | error e => simp [processTrailGrid, hb]
      | ok op =>
        cases op with
        | none => simp [processTrailGrid, hb, zeroResult]
        | some poly =>
          simp only [processTrailGrid, hb]
          by_cases hc : (getCandidatesInBbox (buildObservationGrid obs)
              poly.minX poly.minY poly.maxX poly.maxY).isEmpty
          · rw [if_pos hc]
            rfl
          · rw [if_neg hc]
            show (pointsWithinPolygon _ poly).length =
              ((pointsWithinPolygon _ poly).map (fun f => f.props)).length
            rw [List.length_map]

end SpatialAnalysis

/-! ## Upsert and delete lemmas -/

namespace RefreshObservations

open RefreshTrailCounts (DbObs)

theorem upsertRow_mem_of_ne (t : List DbObs) (x r : DbObs) (h : r ∈ t)
    (hne : keyOf r ≠ keyOf x) : r ∈ upsertRow t x := by
  unfold upsertRow
  by_cases hany : t.any (fun y => decide (keyOf y = keyOf x)) = true
  · rw [if_pos hany]
    refine List.mem_map.mpr ⟨r, h, ?_⟩
    rw [if_neg hne]
  · rw [if_neg hany]
    exact List.mem_append_left _ h

theorem upsertRow_key_mem (t : List DbObs) (x : DbObs) (k : Int × String)
    (h : k ∈ t.map keyOf) : k ∈ (upsertRow t x).map keyOf := by
  unfold upsertRow
  by_cases hany : t.any (fun y => decide (keyOf y = keyOf x)) = true
  · rw [if_pos hany]
    obtain ⟨r, hr, rfl⟩ := List.mem_map.mp h
    rw [List.map_map]
    refine List.mem_map.mpr ⟨r, hr, ?_⟩
    show keyOf (if keyOf r = keyOf x then x else r) = keyOf r
    by_cases hk : keyOf r = keyOf x
    · rw [if_pos hk, ← hk]
    · rw [if_neg hk]
  · rw [if_neg hany]
    rw [List.map_append]
    exact List.mem_append_left _ h

theorem upsertRow_mem_src (t : List DbObs) (x z : DbObs)
    (h : z ∈ upsertRow t x) : z ∈ t ∨ z = x := by
  unfold upsertRow at h
  by_cases hany : t.any (fun y => decide (keyOf y = keyOf x)) = true
  · rw [if_pos hany] at h
    obtain ⟨y, hy, hz⟩ := List.mem_map.mp h
    by_cases hk : keyOf y = keyOf x
    · rw [if_pos hk] at hz
      exact Or.inr hz.symm
    · rw [if_neg hk] at hz
      exact Or.inl (hz ▸ hy)
  · rw [if_neg hany] at h
    rcases List.mem_append.mp h with h' | h'
    · exact Or.inl h'
    · rcases List.mem_singleton.mp h' with rfl
      exact Or.inr rfl

theorem upsertBatched_mem_of_not_key (rows : List DbObs) :
    ∀ (t : List DbObs) (r : DbObs), r ∈ t →
      keyOf r ∉ rows.map keyOf → r ∈ upsertBatched t rows := by
  induction rows with
  | nil => intro t r h _; exact h
  | cons x rows ih =>
    intro t r h hk
    have step : upsertBatched t (x :: rows) =
        upsertBatched (upsertRow t x) rows := rfl
    rw [step]
    apply ih
    · apply upsertRow_mem_of_ne _ _ _ h
      intro e
      exact hk (by rw [List.map_cons]; exact List.mem_cons.mpr (Or.inl e))
    · intro hmem
      exact hk (by rw [List.map_cons]; exact List.mem_cons_of_mem _ hmem)

theorem upsertBatched_key_mem (rows : List DbObs) :
    ∀ (t : List DbObs) (k : Int × String), k ∈ t.map keyOf →
      k ∈ (upsertBatched t rows).map keyOf := by
  induction rows with
  | nil => intro t k h; exact h
  | cons x rows ih =>
    intro t k h
    have step : upsertBatched t (x :: rows) =
        upsertBatched (upsertRow t x) rows := rfl
    rw [step]
    exact ih _ _ (upsertRow_key_mem t x k h)

theorem upsertBatched_mem_src (rows : List DbObs) :
    ∀ (t : List DbObs) (z : DbObs), z ∈ upsertBatched t rows →
      z ∈ t ∨ z ∈ rows := by
  induction rows with
  | nil => intro t z h; exact Or.inl h
  | cons x rows ih =>
    intro t z h
    have step : upsertBatched t (x :: rows) =
        upsertBatched (upsertRow t x) rows := rfl
    rw [step] at h
    rcases ih _ _ h with h' | h'
    · rcases upsertRow_mem_src t x z h' with h'' | h''
      · exact Or.inl h''
      · exact Or.inr (h'' ▸ List.mem_cons_self x rows)
    · exact Or.inr (List.mem_cons_of_mem _ h')

theorem mem_deleteOld (s : String) (d1 : Int) (table : List DbObs)
    (r : DbObs) :
    r ∈ deleteOldObservationsChunked s d1 table ↔
      r ∈ table ∧
        ¬(r.state = s ∧ r.observedOn = some (dateToDelete d1)) := by
  unfold deleteOldObservationsChunked
  rw [List.mem_filter]
  constructor
  · rintro ⟨hmem, hb⟩
    refine ⟨hmem, ?_⟩
    rintro ⟨h1, h2⟩
    simp [h1, h2] at hb
  · rintro ⟨hmem, hn⟩
    refine ⟨hmem, ?_⟩
    by_cases c1 : r.state = s
    · by_cases c2 : r.observedOn = some (dateToDelete d1)
      · exact absurd ⟨c1, c2⟩ hn
      · simp [c1, c2]
    · simp [c1]

end RefreshObservations

/-! ## Result-shape helpers -/

namespace SpatialAnalysis

theorem processTrailGrid_name (buf : BufferFn) (g : Grid) (t : Trail) :
    (processTrailGrid buf g t).name = t.name := by
  cases hb : buf t with
  | error e => simp [processTrailGrid, hb]
  | ok op =>
    cases op with
    | none => simp [processTrailGrid, hb, zeroResult]
    | some poly =>
      simp only [processTrailGrid, hb]
      by_cases hc : (getCandidatesInBbox g poly.minX poly.minY poly.maxX
          poly.maxY).isEmpty
      · rw [if_pos hc]
        rfl
      · rw [if_neg hc]

theorem calc_results_length (buf : BufferFn) (trails : List Trail)
    (obs : List ObsFeature) (h : ¬ trails.isEmpty = true) :
    (calculateTrailDensity buf trails obs).1.length = trails.length := by
  unfold calculateTrailDensity
  rw [if_neg h]
  by_cases ho : obs.isEmpty
  · rw [if_pos ho]
    exact List.length_map trails zeroResult
  · rw [if_neg ho]
    show (sortByKeyDesc _ _).length = _
    rw [length_sortByKeyDesc, List.length_map]

theorem calc_names_perm (buf : BufferFn) (trails : List Trail)
    (obs : List ObsFeature) (h : ¬ trails.isEmpty = true) :
    ((calculateTrailDensity buf trails obs).1.map (fun r => r.name)).Perm
      (trails.map (fun t => t.name)) := by
  unfold calculateTrailDensity
  rw [if_neg h]
  by_cases ho : obs.isEmpty
  · rw [if_pos ho]
    show ((trails.map zeroResult).map (fun r => r.name)).Perm _
    rw [List.map_map]
    exact List.Perm.refl _
  · rw [if_neg ho]
    show ((sortByKeyDesc _ (trails.map
      (processTrailGrid buf (buildObservationGrid obs)))).map
        (fun r => r.name)).Perm _
    refine (List.Perm.map _ (sortByKeyDesc_perm _ _)).trans ?_
    rw [List.map_map]
    apply List.Perm.of_eq
    apply List.map_congr_left
    intro t _
    exact processTrailGrid_name buf _ t

theorem pairwise_const {α : Type} {R : α → α → Prop} (h : ∀ a b, R a b)
    (l : List α) : l.Pairwise R := by
  induction l with
  | nil => exact List.Pairwise.nil
  | cons x xs ih => exact List.Pairwise.cons (fun b _ => h x b) ih

theorem pairwise_count_of_key {l : List TrailResult}
    (h : l.Pairwise (fun a b =>
      ((fun r => (r.observationCount : Int)) b) ≤
        ((fun r => (r.observationCount : Int)) a))) :
    l.Pairwise (fun a b => b.observationCount ≤ a.observationCount) :=
  h.imp (fun hab => by
    simp only [] at hab
    exact_mod_cast hab)

theorem calc_pairwise (buf : BufferFn) (trails : List Trail)
    (obs : List ObsFeature) :
    (calculateTrailDensity buf trails obs).1.Pairwise
      (fun a b => b.observationCount ≤ a.observationCount) := by
  unfold calculateTrailDensity
  by_cases ht : trails.isEmpty
  · rw [if_pos ht]
    exact List.Pairwise.nil
  · rw [if_neg ht]
    by_cases ho : obs.isEmpty
    · rw [if_pos ho]
      show (trails.map zeroResult).Pairwise _
      rw [List.pairwise_map]
      exact pairwise_const (fun a b => le_refl 0) trails
    · rw [if_neg ho]
      exact pairwise_count_of_key (pairwise_sortByKeyDesc _ _)

theorem buildResults_pairwise (trails : List Trail)
    (counts : List CountRow) :
    (buildResultsFromCounts trails counts).Pairwise
      (fun a b => b.observationCount ≤ a.observationCount) := by
  unfold buildResultsFromCounts
  by_cases ht : trails.isEmpty
  · rw [if_pos ht]
    exact List.Pairwise.nil
  · rw [if_neg ht]
    exact (pairwise_sortByKeyDesc _ _).imp (fun hab => by exact_mod_cast hab)

theorem summary_maxCount_is_max {l : List TrailResult}
    (hp : l.Pairwise (fun a b => b.observationCount ≤ a.observationCount)) :
    ∀ r ∈ l, r.observationCount ≤ (getAnalysisSummary l).maxCount := by
  cases l with
  | nil =>
    intro r hr
    simp at hr
  | cons a rest =>
    intro r hr
    rw [List.pairwise_cons] at hp
    rcases List.mem_cons.mp hr with rfl | hr'
    · exact le_refl _
    · exact hp.1 r hr'

end SpatialAnalysis

/-! ## Provider fetch-loop helpers -/

namespace RefreshObservations

theorem fetchLoop_snd_le (provider : Nat → List ProviderObs) :
    ∀ (n page : Nat), (fetchLoop provider n page).2 ≤ n := by
  intro n
  induction n with
  | zero => intro page; exact le_refl 0
  | succ n ih =>
    intro page
    show (if (provider page).length = 0 then (([] : List ProviderObs), 1)
      else if (provider page).length < PER_PAGE then (provider page, 1)
      else ((provider page) ++ (fetchLoop provider n (page + 1)).1,
        (fetchLoop provider n (page + 1)).2 + 1)).2 ≤ n + 1
    by_cases h0 : (provider page).length = 0
    · rw [if_pos h0]
      omega
    · rw [if_neg h0]
      by_cases h1 : (provider page).length < PER_PAGE
      · rw [if_pos h1]
        omega
      · rw [if_neg h1]
        have := ih (page + 1)
        show (fetchLoop provider n (page + 1)).2 + 1 ≤ n + 1
        omega

theorem fetchLoop_full_step (provider : Nat → List ProviderObs)
    (n page : Nat) (hp : (provider page).length = PER_PAGE) :
    fetchLoop provider (n + 1) page =
      ((provider page) ++ (fetchLoop provider n (page + 1)).1,
        (fetchLoop provider n (page + 1)).2 + 1) := by
  show (if (provider page).length = 0 then (([] : List ProviderObs), 1)
    else if (provider page).length < PER_PAGE then (provider page, 1)
    else ((provider page) ++ (fetchLoop provider n (page + 1)).1,
      (fetchLoop provider n (page + 1)).2 + 1)) = _
  rw [if_neg (by rw [hp]; decide), if_neg (by rw [hp]; decide)]

end RefreshObservations

/-! ## Claims -/

open SpatialAnalysis RefreshTrailCounts RefreshObservations

/--
Claim C1: for every trail row produced by `refreshOneState`
(refresh-trail-counts-lib), the sum of the `count` fields of its
`species_breakdown` (built by `speciesBreakdownForTrail` from the trail's
`observationsNearby`) equals its `observation_count`.
-/
theorem breakdown_sum_matches_observation_count (s : String)
    (buf : BufferFn) (trails : List Trail) (obs : List ObsFeature) :
    ∀ row ∈ refreshOneStateRows s buf trails obs,
      (row.species_breakdown.map (fun e => e.count)).sum =
        row.observation_count := by
  intro row hrow
  unfold refreshOneStateRows at hrow
  obtain ⟨r, hr, rfl⟩ := List.mem_map.mp hrow
  show ((speciesBreakdownForTrail r.observationsNearby).map
    (fun e => e.count)).sum = r.observationCount
  rw [speciesBreakdown_sum]
  exact (calc_count_eq_nearby buf trails obs r hr).symm

/-- Witness for C1 at a concrete input. -/
theorem breakdown_sum_matches_observation_count_witness :
    ((⟨"ca", "A", 0, []⟩ : CountRow) ∈
      refreshOneStateRows "ca" (fun _ => Except.ok none)
        [⟨"A", 0⟩] []) ∧
    (((⟨"ca", "A", 0, []⟩ : CountRow).species_breakdown.map
        (fun e => e.count)).sum =
      (⟨"ca", "A", 0, []⟩ : CountRow).observation_count) :=
  ⟨by decide,
    breakdown_sum_matches_observation_count "ca"
      (fun _ => Except.ok none) [⟨"A", 0⟩] [] _ (by decide)⟩

/--
Claim C3: when the store view holds some number of full pages of the
configured page size followed by a final short non-empty page, the
pagination loops of `getTrailsGeoJSON` (page size `TRAILS_PAGE`) and
`getObservationsGeoJSON` (page size `OBS_PAGE`) fetch exactly
`ceil(total / pageSize)` pages and return every row exactly once, in
order — no duplicates, no drops.
-/
theorem pagination_fetches_ceil_pages (tview : List TrailChunk)
    (oview : List DbObs) (k1 r1 k2 r2 : Nat)
    (ht : tview.length = k1 * TRAILS_PAGE + r1) (hr1 : 0 < r1)
    (hr1' : r1 < TRAILS_PAGE)
    (ho : oview.length = k2 * OBS_PAGE + r2) (hr2 : 0 < r2)
    (hr2' : r2 < OBS_PAGE) :
    getTrailsAllRows tview = (tview, k1 + 1) ∧
      k1 + 1 = (tview.length + (TRAILS_PAGE - 1)) / TRAILS_PAGE ∧
      getObservationsAllData oview = (oview, k2 + 1) ∧
      k2 + 1 = (oview.length + (OBS_PAGE - 1)) / OBS_PAGE := by
  have hT : TRAILS_PAGE = 10 := rfl
  have hO : OBS_PAGE = 500 := rfl
  rw [hT] at ht hr1'
  rw [hO] at ho hr2'
  refine ⟨?_, ?_, ?_, ?_⟩
  · show paginateFrom TRAILS_PAGE tview 0 = (tview, k1 + 1)
    rw [hT]
    have h := @paginateFrom_exact TrailChunk 10 k1 r1 hr1 hr1' tview 0
      (by omega) (by omega)
    rw [List.drop_zero] at h
    exact h
  · rw [hT, ht]
    omega
  · show paginateFrom OBS_PAGE oview 0 = (oview, k2 + 1)
    rw [hO]
    have h := @paginateFrom_exact DbObs 500 k2 r2 hr2 hr2' oview 0
      (by omega) (by omega)
    rw [List.drop_zero] at h
    exact h
  · rw [hO, ho]
    omega

/-- Witness for C3 at a concrete input: one short page on both stores. -/
theorem pagination_fetches_ceil_pages_witness :
    getTrailsAllRows [(⟨"ca", 0, none⟩ : TrailChunk)] =
        ([(⟨"ca", 0, none⟩ : TrailChunk)], 0 + 1) ∧
      0 + 1 = (([(⟨"ca", 0, none⟩ : TrailChunk)].length +
        (TRAILS_PAGE - 1)) / TRAILS_PAGE) ∧
      getObservationsAllData
          [(⟨1, "ca", none, none, none, some 3, none, none, none, 0, 0⟩ :
            DbObs)] =
        ([(⟨1, "ca", none, none, none, some 3, none, none, none, 0, 0⟩ :
          DbObs)], 0 + 1) ∧
      0 + 1 = (([(⟨1, "ca", none, none, none, some 3, none, none, none,
        0, 0⟩ : DbObs)].length + (OBS_PAGE - 1)) / OBS_PAGE) :=
  pagination_fetches_ceil_pages _ _ 0 1 0 1 (by decide) (by decide)
    (by decide) (by decide) (by decide) (by decide)

/--
Claim C5: for every non-empty trail collection, `calculateTrailDensity`
returns exactly one result per trail feature and `refreshOneState` builds
exactly one row per trail — trails with zero matched observations included,
with `observation_count = 0` and empty `species_breakdown`; in particular a
region with trails and no in-window observations yields one all-zero row
per trail.
-/
theorem one_row_per_trail (s : String) (buf : BufferFn)
    (trails : List Trail) (obs : List ObsFeature) (h : trails ≠ []) :
    (refreshOneStateRows s buf trails obs).length = trails.length ∧
      ((calculateTrailDensity buf trails obs).1.map
        (fun r => r.name)).Perm (trails.map (fun t => t.name)) ∧
      (∀ r ∈ (calculateTrailDensity buf trails obs).1,
        r.observationsNearby = [] → r.observationCount = 0 ∧
          speciesBreakdownForTrail r.observationsNearby = []) ∧
      (obs = [] → refreshOneStateRows s buf trails obs =
        trails.map (fun t =>
          { state := s, trail_name := t.name, observation_count := 0,
            species_breakdown := [] })) := by
  have ht : ¬ trails.isEmpty = true := by
    simpa [List.isEmpty_iff] using h
  refine ⟨?_, calc_names_perm buf trails obs ht, ?_, ?_⟩
  · show ((calculateTrailDensity buf trails obs).1.map _).length = _
    rw [List.length_map]
    exact calc_results_length buf trails obs ht
  · intro r hr heq
    constructor
    · rw [calc_count_eq_nearby buf trails obs r hr, heq]
      rfl
    · rw [heq]
      rfl
  · intro hobs
    subst hobs
    unfold refreshOneStateRows calculateTrailDensity
    rw [if_neg ht,
      if_pos (show ([] : List ObsFeature).isEmpty = true from rfl)]
    show (trails.map zeroResult).map _ = _
    rw [List.map_map]
    apply List.map_congr_left
    intro t _
    rfl

/-- Witness for C5: three trails, zero observations, three all-zero rows. -/
theorem one_row_per_trail_witness :
    (refreshOneStateRows "ca" (fun _ => Except.ok none)
        [⟨"A", 0⟩, ⟨"B", 1⟩, ⟨"C", 2⟩] []).length =
      ([(⟨"A", 0⟩ : Trail), ⟨"B", 1⟩, ⟨"C", 2⟩]).length ∧
    (refreshOneStateRows "ca" (fun _ => Except.ok none)
        [⟨"A", 0⟩, ⟨"B", 1⟩, ⟨"C", 2⟩] [] =
      [⟨"ca", "A", 0, []⟩, ⟨"ca", "B", 0, []⟩, ⟨"ca", "C", 0, []⟩]) :=
  ⟨(one_row_per_trail "ca" (fun _ => Except.ok none)
      [⟨"A", 0⟩, ⟨"B", 1⟩, ⟨"C", 2⟩] [] (by decide)).1,
    by
      have h := (one_row_per_trail "ca" (fun _ => Except.ok none)
        [⟨"A", 0⟩, ⟨"B", 1⟩, ⟨"C", 2⟩] [] (by decide)).2.2.2 rfl
      exact h⟩

/--
Claim C8: the observation load filter is inclusive at the window boundary —
an observation dated exactly at window start (run date minus 7 days) is
returned by `getObservationsGeoJSON`, and one dated one day earlier is not.
-/
theorem window_start_boundary_inclusive (runDay : Int) (s : String)
    (table : List DbObs) (o : DbObs) :
    (o ∈ table → o.state = s → o.observedOn = some (runDay - 7) →
      obsSelectRow o ∈ getObservationsGeoJSON runDay s table) ∧
    (o.observedOn = some (runDay - 7 - 1) →
      obsSelectRow o ∉ getObservationsGeoJSON runDay s table) := by
  have hview : (getObservationsAllData (obsStoreView runDay s table)).1 =
      obsStoreView runDay s table := by
    show (paginateFrom OBS_PAGE _ 0).1 = _
    rw [paginateFrom_fst (by decide : 0 < OBS_PAGE)]
    exact List.drop_zero _
  constructor
  · intro hmem hstate hdate
    unfold getObservationsGeoJSON
    rw [hview]
    apply List.mem_map_of_mem
    unfold obsStoreView
    rw [mem_sortByKeyDesc]
    refine List.mem_filter.mpr ⟨hmem, ?_⟩
    rw [hdate]
    simp [hstate, windowStart]
  · intro hdate hmemF
    unfold getObservationsGeoJSON at hmemF
    rw [hview] at hmemF
    obtain ⟨o', ho', heq⟩ := List.mem_map.mp hmemF
    unfold obsStoreView at ho'
    rw [mem_sortByKeyDesc] at ho'
    obtain ⟨-, hb⟩ := List.mem_filter.mp ho'
    have hdate' : o'.observedOn = o.observedOn :=
      congrArg (fun f => f.props.observedOn) heq
    rw [hdate'] at hb
    rw [hdate] at hb
    simp only [Bool.and_eq_true, decide_eq_true_eq, Option.any_some,
      windowStart] at hb
    omega

/-- Witness for C8 at a concrete input: run day 10, window start at day 3;
a day-3 observation is returned, a day-2 observation is not. -/
theorem window_start_boundary_inclusive_witness :
    (obsSelectRow ⟨1, "ca", none, none, none, some 3, none, none, none,
        0, 0⟩ ∈
      getObservationsGeoJSON 10 "ca"
        [⟨1, "ca", none, none, none, some 3, none, none, none, 0, 0⟩,
          ⟨2, "ca", none, none, none, some 2, none, none, none, 0, 0⟩]) ∧
    (obsSelectRow ⟨2, "ca", none, none, none, some 2, none, none, none,
        0, 0⟩ ∉
      getObservationsGeoJSON 10 "ca"
        [⟨1, "ca", none, none, none, some 3, none, none, none, 0, 0⟩,
          ⟨2, "ca", none, none, none, some 2, none, none, none, 0, 0⟩]) :=
  ⟨(window_start_boundary_inclusive 10 "ca" _ _).1 (by decide) rfl
      (by decide),
    (window_start_boundary_inclusive 10 "ca" _ _).2 (by decide)⟩

/--
Claim C9: `fetchObservationsForPlace` issues at most `maxPages` (4)
provider requests and terminates for every provider behavior; when the
provider always returns full pages the ceiling is treated as end-of-data —
all four pages are returned, with no error; the internal store pagination
loops stop after a single fetch once a short (or empty) page is reached.
-/
theorem provider_fetch_ceiling_terminates
    (provider : Nat → List ProviderObs) (tview : List TrailChunk)
    (oview : List DbObs) (toff ooff : Nat) :
    (fetchObservationsForPlace provider).2 ≤ maxPages ∧
    ((∀ p, 1 ≤ p → p ≤ maxPages → (provider p).length = PER_PAGE) →
      fetchObservationsForPlace provider =
        (provider 1 ++ (provider 2 ++ (provider 3 ++ provider 4)), 4)) ∧
    ((tview.drop toff).length < TRAILS_PAGE →
      (paginateFrom TRAILS_PAGE tview toff).2 = 1) ∧
    ((oview.drop ooff).length < OBS_PAGE →
      (paginateFrom OBS_PAGE oview ooff).2 = 1) := by
  refine ⟨fetchLoop_snd_le provider maxPages 1, ?_, ?_, ?_⟩
  · intro hfull
    have e1 : (provider 1).length = PER_PAGE :=
      hfull 1 (by decide) (by decide)
    have e2 : (provider 2).length = PER_PAGE :=
      hfull 2 (by decide) (by decide)
    have e3 : (provider 3).length = PER_PAGE :=
      hfull 3 (by decide) (by decide)
    have e4 : (provider 4).length = PER_PAGE :=
      hfull 4 (by decide) (by decide)
    show fetchLoop provider 4 1 = _
    rw [show fetchLoop provider 4 1 =
        ((provider 1) ++ (fetchLoop provider 3 2).1,
          (fetchLoop provider 3 2).2 + 1) from fetchLoop_full_step _ 3 1 e1]
    rw [show fetchLoop provider 3 2 =
        ((provider 2) ++ (fetchLoop provider 2 3).1,
          (fetchLoop provider 2 3).2 + 1) from fetchLoop_full_step _ 2 2 e2]
    rw [show fetchLoop provider 2 3 =
        ((provider 3) ++ (fetchLoop provider 1 4).1,
          (fetchLoop provider 1 4).2 + 1) from fetchLoop_full_step _ 1 3 e3]
    rw [show fetchLoop provider 1 4 =
        ((provider 4) ++ (fetchLoop provider 0 5).1,
          (fetchLoop provider 0 5).2 + 1) from fetchLoop_full_step _ 0 4 e4]
    rw [show fetchLoop provider 0 5 = ([], 0) from rfl]
    simp
  · intro hshort
    exact paginateFrom_snd_short tview toff hshort
  · intro hshort
    exact paginateFrom_snd_short oview ooff hshort

/-- Witness for C9: a provider that always returns full pages of 200. -/
theorem provider_fetch_ceiling_terminates_witness :
    (fetchObservationsForPlace (fun _ =>
      List.replicate 200
        (⟨1, none, none, none, none, none, none, none, none, none⟩ :
          ProviderObs))).2 ≤ maxPages ∧
    fetchObservationsForPlace (fun _ =>
        List.replicate 200
          (⟨1, none, none, none, none, none, none, none, none, none⟩ :
            ProviderObs)) =
      ((fun (_ : Nat) => List.replicate 200
          (⟨1, none, none, none, none, none, none, none, none, none⟩ :
            ProviderObs)) 1 ++
        ((fun (_ : Nat) => List.replicate 200
          (⟨1, none, none, none, none, none, none, none, none, none⟩ :
            ProviderObs)) 2 ++
          ((fun (_ : Nat) => List.replicate 200
            (⟨1, none, none, none, none, none, none, none, none, none⟩ :
              ProviderObs)) 3 ++
            (fun (_ : Nat) => List.replicate 200
              (⟨1, none, none, none, none, none, none, none, none, none⟩ :
                ProviderObs)) 4)), 4) ∧
    (paginateFrom TRAILS_PAGE ([] : List TrailChunk) 0).2 = 1 ∧
    (paginateFrom OBS_PAGE ([] : List DbObs) 0).2 = 1 :=
  ⟨(provider_fetch_ceiling_terminates _ [] [] 0 0).1,
    (provider_fetch_ceiling_terminates _ [] [] 0 0).2.1
      (fun p _ _ => rfl),
    (provider_fetch_ceiling_terminates
      (fun _ => List.replicate 200
        (⟨1, none, none, none, none, none, none, none, none, none⟩ :
          ProviderObs)) [] [] 0 0).2.2.1 (by decide),
    (provider_fetch_ceiling_terminates
      (fun _ => List.replicate 200
        (⟨1, none, none, none, none, none, none, none, none, none⟩ :
          ProviderObs)) [] [] 0 0).2.2.2 (by decide)⟩

/--
Claim C10: the results arrays of the grid-indexed `calculateTrailDensity`
and of `buildResultsFromCounts` are sorted in non-increasing order of
`observationCount`, and `getAnalysisSummary`'s `maxCount` (read off
`results[0]`) is indeed the maximum count of the results.
-/
theorem results_sorted_by_count_desc (buf : BufferFn)
    (trails tcoll : List Trail) (obs : List ObsFeature)
    (counts : List CountRow) :
    (calculateTrailDensity buf trails obs).1.Pairwise
      (fun a b => b.observationCount ≤ a.observationCount) ∧
    (buildResultsFromCounts tcoll counts).Pairwise
      (fun a b => b.observationCount ≤ a.observationCount) ∧
    (∀ r ∈ (calculateTrailDensity buf trails obs).1,
      r.observationCount ≤
        (getAnalysisSummary (calculateTrailDensity buf trails obs).1).maxCount) :=
  ⟨calc_pairwise buf trails obs,
    buildResults_pairwise tcoll counts,
    summary_maxCount_is_max (calc_pairwise buf trails obs)⟩

/-- Witness for C10 at a concrete input. -/
theorem results_sorted_by_count_desc_witness :
    (calculateTrailDensity (fun _ => Except.ok none) [⟨"A", 0⟩] []).1.Pairwise
      (fun a b => b.observationCount ≤ a.observationCount) ∧
    (buildResultsFromCounts [⟨"A", 0⟩] [⟨"ca", "A", 2, []⟩]).Pairwise
      (fun a b => b.observationCount ≤ a.observationCount) ∧
    (zeroResult ⟨"A", 0⟩ ∈
      (calculateTrailDensity (fun _ => Except.ok none) [⟨"A", 0⟩] []).1 ∧
      (zeroResult ⟨"A", 0⟩).observationCount ≤
        (getAnalysisSummary
          (calculateTrailDensity (fun _ => Except.ok none)
            [⟨"A", 0⟩] []).1).maxCount) :=
  ⟨(results_sorted_by_count_desc (fun _ => Except.ok none) [⟨"A", 0⟩]
      [⟨"A", 0⟩] [] [⟨"ca", "A", 2, []⟩]).1,
    (results_sorted_by_count_desc (fun _ => Except.ok none) [⟨"A", 0⟩]
      [⟨"A", 0⟩] [] [⟨"ca", "A", 2, []⟩]).2.1,
    by decide,
    (results_sorted_by_count_desc (fun _ => Except.ok none) [⟨"A", 0⟩]
      [⟨"A", 0⟩] [] [⟨"ca", "A", 2, []⟩]).2.2 (zeroResult ⟨"A", 0⟩)
      (by decide)⟩

/--
Claim C4: an incremental refresh (`refreshOneState` of
refresh-observations, run with the handler's `d1 = runDay - 7`) deletes
exactly the region's observation rows dated `runDay - 8` — the single day
that just exited the 7-day window: matching rows not re-upserted are gone,
every row of any other date or region keeps its key, any removed row was
either that single day or overwritten by key, and `backfillOneState` never
deletes a row.
-/
theorem incremental_refresh_evicts_single_day
    (provider : Nat → List ProviderObs) (s : String) (runDay : Int)
    (table : List DbObs) :
    (deleteOldObservationsChunked s (handlerD1 runDay) table =
      table.filter (fun r =>
        !(decide (r.state = s) &&
          decide (r.observedOn = some (runDay - 8))))) ∧
    (∀ r ∈ table, r.state = s → r.observedOn = some (runDay - 8) →
      keyOf r ∉
        (toRows (fetchObservationsForPlace provider).1 s).map keyOf →
      r ∉ refreshOneState provider s (handlerD1 runDay) table) ∧
    (∀ r ∈ table, ¬(r.state = s ∧ r.observedOn = some (runDay - 8)) →
      keyOf r ∈
        (refreshOneState provider s (handlerD1 runDay) table).map keyOf) ∧
    (∀ r ∈ table,
      r ∉ refreshOneState provider s (handlerD1 runDay) table →
      (r.state = s ∧ r.observedOn = some (runDay - 8)) ∨
        keyOf r ∈
          (toRows (fetchObservationsForPlace provider).1 s).map keyOf) ∧
    (∀ r ∈ table,
      keyOf r ∈ (backfillOneState provider s table).map keyOf) := by
  have hdd : dateToDelete (handlerD1 runDay) = runDay - 8 := by
    unfold dateToDelete handlerD1
    omega
  have hdel_mem : ∀ r : DbObs,
      r ∈ deleteOldObservationsChunked s (handlerD1 runDay) table ↔
        r ∈ table ∧
          ¬(r.state = s ∧ r.observedOn = some (runDay - 8)) := by
    intro r
    rw [mem_deleteOld, hdd]
  have hrefresh : refreshOneState provider s (handlerD1 runDay) table =
      (if (toRows (fetchObservationsForPlace provider).1 s).length = 0
        then deleteOldObservationsChunked s (handlerD1 runDay) table
        else upsertBatched
          (deleteOldObservationsChunked s (handlerD1 runDay) table)
          (toRows (fetchObservationsForPlace provider).1 s)) := rfl
  have hback : backfillOneState provider s table =
      (if (toRows (fetchObservationsForPlace provider).1 s).length = 0
        then table
        else upsertBatched table
          (toRows (fetchObservationsForPlace provider).1 s)) := rfl
  refine ⟨?_, ?_, ?_, ?_, ?_⟩
  · unfold deleteOldObservationsChunked
    apply List.filter_congr
    intro r _
    rw [hdd]
  · intro r hmem hstate hdate hkey hin
    rw [hrefresh] at hin
    have hnotdel :
        r ∉ deleteOldObservationsChunked s (handlerD1 runDay) table := by
      intro hd
      exact ((hdel_mem r).mp hd).2 ⟨hstate, hdate⟩
    by_cases hlen :
        (toRows (fetchObservationsForPlace provider).1 s).length = 0
    · rw [if_pos hlen] at hin
      exact hnotdel hin
    · rw [if_neg hlen] at hin
      rcases upsertBatched_mem_src _ _ _ hin with h' | h'
      · exact hnotdel h'
      · exact hkey (List.mem_map_of_mem keyOf h')
  · intro r hmem hn
    have hdel := (hdel_mem r).mpr ⟨hmem, hn⟩
    rw [hrefresh]
    by_cases hlen :
        (toRows (fetchObservationsForPlace provider).1 s).length = 0
    · rw [if_pos hlen]
      exact List.mem_map_of_mem keyOf hdel
    · rw [if_neg hlen]
      exact upsertBatched_key_mem _ _ _ (List.mem_map_of_mem keyOf hdel)
  · intro r hmem hnot
    by_cases hmatch : r.state = s ∧ r.observedOn = some (runDay - 8)
    · exact Or.inl hmatch
    · right
      by_contra hkey
      apply hnot
      rw [hrefresh]
      have hdel := (hdel_mem r).mpr ⟨hmem, hmatch⟩
      by_cases hlen :
          (toRows (fetchObservationsForPlace provider).1 s).length = 0
      · rw [if_pos hlen]
        exact hdel
      · rw [if_neg hlen]
        exact upsertBatched_mem_of_not_key _ _ _ hdel hkey
  · intro r hmem
    rw [hback]
    by_cases hlen :
        (toRows (fetchObservationsForPlace provider).1 s).length = 0
    · rw [if_pos hlen]
      exact List.mem_map_of_mem keyOf hmem
    · rw [if_neg hlen]
      exact upsertBatched_key_mem _ _ _ (List.mem_map_of_mem keyOf hmem)

/-- Witness for C4 at a concrete input: run day 10; the day-2 row of the
region is evicted, the day-5 row keeps its key, backfill keeps all keys. -/
theorem incremental_refresh_evicts_single_day_witness :
    (deleteOldObservationsChunked "ca" (handlerD1 10)
        [⟨1, "ca", none, none, none, some 2, none, none, none, 0, 0⟩,
          ⟨2, "ca", none, none, none, some 5, none, none, none, 0, 0⟩] =
      ([⟨1, "ca", none, none, none, some 2, none, none, none, 0, 0⟩,
        (⟨2, "ca", none, none, none, some 5, none, none, none, 0, 0⟩ :
          DbObs)]).filter (fun r =>
        !(decide (r.state = "ca") &&
          decide (r.observedOn = some ((10 : Int) - 8))))) ∧
    ((⟨1, "ca", none, none, none, some 2, none, none, none, 0, 0⟩ :
        DbObs) ∉
      refreshOneState (fun _ => []) "ca" (handlerD1 10)
        [⟨1, "ca", none, none, none, some 2, none, none, none, 0, 0⟩,
          ⟨2, "ca", none, none, none, some 5, none, none, none, 0, 0⟩]) ∧
    (keyOf ⟨2, "ca", none, none, none, some 5, none, none, none, 0, 0⟩ ∈
      (refreshOneState (fun _ => []) "ca" (handlerD1 10)
        [⟨1, "ca", none, none, none, some 2, none, none, none, 0, 0⟩,
          ⟨2, "ca", none, none, none, some 5, none, none, none, 0, 0⟩]).map
        keyOf) ∧
    (keyOf ⟨1, "ca", none, none, none, some 2, none, none, none, 0, 0⟩ ∈
      (backfillOneState (fun _ => []) "ca"
        [⟨1, "ca", none, none, none, some 2, none, none, none, 0, 0⟩,
          ⟨2, "ca", none, none, none, some 5, none, none, none, 0, 0⟩]).map
        keyOf) :=
  ⟨(incremental_refresh_evicts_single_day (fun _ => []) "ca" 10 _).1,
    (incremental_refresh_evicts_single_day (fun _ => []) "ca" 10 _).2.1
      _ (by decide) rfl (by decide) (by decide),
    (incremental_refresh_evicts_single_day (fun _ => []) "ca" 10 _).2.2.1
      _ (by decide) (by decide),
    (incremental_refresh_evicts_single_day (fun _ => []) "ca" 10
      _).2.2.2.2 _ (by decide)⟩

/--
Claim C2: for every trails collection and every observations collection,
the grid-indexed `calculateTrailDensity` produces, position by position,
results with the same trail name, the same `observationCount`, and the same
multiset of matched observation properties as the naive
`calculateTrailDensity` that runs `pointsWithinPolygon` on the full
observation collection — given that a buffer polygon's stored bounding box
really bounds its containment test (the property `turf.bbox` provides).
The grid candidate set is a superset of the true spatial match and the
exact containment test restores correctness.
-/
theorem grid_density_refines_naive_density (buf : BufferFn)
    (trails : List Trail) (obs : List ObsFeature)
    (hbox : ∀ t poly, buf t = Except.ok (some poly) →
      ∀ f ∈ obs, poly.containsPt f.lng f.lat = true →
        poly.minX ≤ f.lng ∧ f.lng ≤ poly.maxX ∧
          poly.minY ≤ f.lat ∧ f.lat ≤ poly.maxY) :
    List.Forall₂ DensityAgree (calculateTrailDensity buf trails obs).1
      (calculateTrailDensityNaive buf trails obs) := by
  unfold calculateTrailDensity calculateTrailDensityNaive
  by_cases ht : trails.isEmpty
  · rw [if_pos ht, if_pos ht]
    exact List.Forall₂.nil
  · rw [if_neg ht, if_neg ht]
    by_cases ho : obs.isEmpty
    · rw [if_pos ho, if_pos ho]
      show List.Forall₂ DensityAgree (trails.map zeroResult)
        (trails.map zeroResult)
      rw [List.forall₂_same]
      intro x _
      exact ⟨rfl, rfl, List.Perm.refl _⟩
    · rw [if_neg ho, if_neg ho]
      show List.Forall₂ DensityAgree
        (sortByKeyDesc (fun r => (r.observationCount : Int))
          (trails.map (processTrailGrid buf (buildObservationGrid obs))))
        (sortByKeyDesc (fun r => (r.observationCount : Int))
          (trails.map (processTrailNaive buf obs)))
      apply sortByKeyDesc_forall₂
      · intro a b hab
        have h := hab.2.1
        exact_mod_cast h
      · apply forall₂_map_of_mem
        intro t _
        exact processTrail_agree buf obs t (fun poly hb => hbox t poly hb)

/-- Witness for C2 at a concrete input: one trail buffered to the unit
square, one observation inside it. -/
theorem grid_density_refines_naive_density_witness :
    List.Forall₂ DensityAgree
      (calculateTrailDensity
        (fun _ => Except.ok (some ⟨0, 0, 1, 1, fun x y =>
          decide (0 ≤ x) && decide (x ≤ 1) && decide (0 ≤ y) &&
            decide (y ≤ 1)⟩))
        [⟨"A", 0⟩]
        [⟨1/2, 1/2, ⟨1, none, none, none, none, none, none, none⟩⟩]).1
      (calculateTrailDensityNaive
        (fun _ => Except.ok (some ⟨0, 0, 1, 1, fun x y =>
          decide (0 ≤ x) && decide (x ≤ 1) && decide (0 ≤ y) &&
            decide (y ≤ 1)⟩))
        [⟨"A", 0⟩]
        [⟨1/2, 1/2, ⟨1, none, none, none, none, none, none, none⟩⟩]) := by
  apply grid_density_refines_naive_density
  intro t poly h f hf hc
  have h1 : some (⟨0, 0, 1, 1, fun x y =>
      decide (0 ≤ x) && decide (x ≤ 1) && decide (0 ≤ y) &&
        decide (y ≤ 1)⟩ : Polygon) = some poly := Except.ok.inj h
  have h2 := Option.some.inj h1
  subst h2
  have hf' : f = ⟨1/2, 1/2, ⟨1, none, none, none, none, none, none,
      none⟩⟩ := by
    rcases List.mem_singleton.mp hf with rfl
    rfl
  subst hf'
  refine ⟨by norm_num, by norm_num, by norm_num, by norm_num⟩

/--
Claim C6 (counterexample): `speciesBreakdownForTrail` does not implement
the claimed grouping literally.  For a single matched observation with the
empty-string species and taxon id 0, the code groups under "Unknown"
(JavaScript `o.species || 'Unknown'` treats the empty string as falsy) and
drops the taxon id (`taxon_id || undefined` treats 0 as falsy), whereas the
claim — grouping by species name with only null mapped to "Unknown" and
retaining the first non-null taxon id — would produce an entry for "" with
taxon id 0.
-/
theorem species_breakdown_claim_counterexample :
    speciesBreakdownForTrail
        [⟨1, some "", none, some 0, none, none, none, none⟩] ≠
      claimedSpeciesBreakdown
        [⟨1, some "", none, some 0, none, none, none, none⟩] := by
  have h1 : speciesBreakdownForTrail
      [⟨1, some "", none, some 0, none, none, none, none⟩] =
      [⟨"Unknown", 1, none⟩] := rfl
  have h2 : claimedSpeciesBreakdown
      [⟨1, some "", none, some 0, none, none, none, none⟩] =
      [⟨"", 1, some 0⟩] := by
    unfold claimedSpeciesBreakdown groupedSpeciesBreakdown
    rw [show (([⟨1, some "", none, some 0, none, none, none, none⟩] :
      List ObsProps).map claimedKey) = [""] from rfl]
    have hk : keysInOrder [""] = [""] := by
      rw [keysInOrder]
      rw [show List.filter (fun x => decide (x ≠ "")) [] = [] from rfl]
      rw [keysInOrder]
    rw [hk]
    rfl
  rw [h1, h2]
  decide

/--
Claim C6 (amended): `speciesBreakdownForTrail` groups matched observations
by species name with a null **or empty** species mapped to "Unknown", sets
each entry's count to the number of matches with that (normalized) species
key, retains the first non-null taxon id seen for the key **except that a
taxon id of 0 is output as absent**, and lists entries in insertion order
of first occurrence — i.e. it equals `amendedSpeciesBreakdown`.
-/
theorem species_breakdown_grouping_amended (l : List ObsProps) :
    speciesBreakdownForTrail l = amendedSpeciesBreakdown l := by
  unfold speciesBreakdownForTrail
  rw [sbFoldl_eq_sbModel]
  unfold sbModel amendedSpeciesBreakdown groupedSpeciesBreakdown
  rw [List.map_map]
  apply List.map_congr_left
  intro s _
  rfl

/--
Claim C7 (counterexample): in the grid-indexed `calculateTrailDensity`,
a trail whose buffer comes back null is emitted with zero observations but
with **no** diagnostic: its result row carries no error field and nothing
is logged (the naive version's `console.warn` was dropped in the
grid-indexed rewrite).
-/
theorem buffer_failure_diagnostic_counterexample :
    ((fun _ => Except.ok none : BufferFn) ⟨"A", 0⟩ = Except.ok none) ∧
    (calculateTrailDensity (fun _ => Except.ok none) [⟨"A", 0⟩]
        [⟨0, 0, ⟨1, none, none, none, none, none, none, none⟩⟩]).1 =
      [zeroResult ⟨"A", 0⟩] ∧
    (calculateTrailDensity (fun _ => Except.ok none) [⟨"A", 0⟩]
        [⟨0, 0, ⟨1, none, none, none, none, none, none, none⟩⟩]).2 =
      [] :=
  ⟨rfl, rfl, rfl⟩

/--
Claim C7 (amended): a trail whose buffering **throws** is still emitted
with `observationCount = 0`, empty `observationsNearby`, and an explicit
diagnostic (the error message on the result row and a console error log);
a trail whose buffer comes back null is likewise emitted with zero
observations (but without a diagnostic, see the counterexample); in both
cases the remaining trails are still processed — the run completes with
one result per trail.
-/
theorem buffer_failure_rows_amended (buf : BufferFn)
    (trails : List Trail) (obs : List ObsFeature) (t : Trail)
    (hmem : t ∈ trails) (hobs : obs ≠ []) :
    (∀ e, buf t = Except.error e →
      (⟨t.name, 0, t, [], some e⟩ : TrailResult) ∈
        (calculateTrailDensity buf trails obs).1 ∧
      ("Error processing trail " ++ t.name ++ ": " ++ e) ∈
        (calculateTrailDensity buf trails obs).2) ∧
    (buf t = Except.ok none →
      zeroResult t ∈ (calculateTrailDensity buf trails obs).1) ∧
    (calculateTrailDensity buf trails obs).1.length = trails.length := by
  have ht : ¬ trails.isEmpty = true :=
    fun h => List.ne_nil_of_mem hmem (List.isEmpty_iff.mp h)
  have ho : ¬ obs.isEmpty = true :=
    fun h => hobs (List.isEmpty_iff.mp h)
  have hmem1 : ∀ r : TrailResult,
      r = processTrailGrid buf (buildObservationGrid obs) t →
      r ∈ (calculateTrailDensity buf trails obs).1 := by
    intro r hr
    unfold calculateTrailDensity
    rw [if_neg ht, if_neg ho]
    show r ∈ sortByKeyDesc _ _
    rw [mem_sortByKeyDesc]
    exact hr ▸ List.mem_map_of_mem _ hmem
  refine ⟨?_, ?_, calc_results_length buf trails obs ht⟩
  · intro e hb
    constructor
    · apply hmem1
      simp [processTrailGrid, hb]
    · unfold calculateTrailDensity
      rw [if_neg ht, if_neg ho]
      show _ ∈ trails.flatMap (processTrailGridLog buf)
      rw [List.mem_flatMap]
      exact ⟨t, hmem, by simp [processTrailGridLog, hb]⟩
  · intro hb
    apply hmem1
    simp [processTrailGrid, hb]

/-- Witness for the amended C7 at concrete inputs: a throwing buffer and a
null buffer. -/
theorem buffer_failure_rows_amended_witness :
    ((⟨"A", 0, ⟨"A", 0⟩, [], some "boom"⟩ : TrailResult) ∈
      (calculateTrailDensity (fun _ => Except.error "boom") [⟨"A", 0⟩]
        [⟨0, 0, ⟨1, none, none, none, none, none, none, none⟩⟩]).1) ∧
    (("Error processing trail " ++ "A" ++ ": " ++ "boom") ∈
      (calculateTrailDensity (fun _ => Except.error "boom") [⟨"A", 0⟩]
        [⟨0, 0, ⟨1, none, none, none, none, none, none, none⟩⟩]).2) ∧
    ((calculateTrailDensity (fun _ => Except.error "boom") [⟨"A", 0⟩]
        [⟨0, 0, ⟨1, none, none, none, none, none, none, none⟩⟩]).1.length =
      ([(⟨"A", 0⟩ : Trail)]).length) ∧
    (zeroResult ⟨"A", 0⟩ ∈
      (calculateTrailDensity (fun _ => Except.ok none) [⟨"A", 0⟩]
        [⟨0, 0, ⟨1, none, none, none, none, none, none, none⟩⟩]).1) :=
  ⟨((buffer_failure_rows_amended (fun _ => Except.error "boom")
      [⟨"A", 0⟩] _ ⟨"A", 0⟩ (by decide) (by decide)).1 "boom" rfl).1,
    ((buffer_failure_rows_amended (fun _ => Except.error "boom")
      [⟨"A", 0⟩] _ ⟨"A", 0⟩ (by decide) (by decide)).1 "boom" rfl).2,
    (buffer_failure_rows_amended (fun _ => Except.error "boom")
      [⟨"A", 0⟩] _ ⟨"A", 0⟩ (by decide) (by decide)).2.2,
    (buffer_failure_rows_amended (fun _ => Except.ok none)
      [⟨"A", 0⟩] _ ⟨"A", 0⟩ (by decide) (by decide)).2.1 rfl⟩
